import Mathlib

/-!
Shallow embedding of the `salary_compare` rule-evaluation engine.

Money and rate values are Python `Decimal`s in the source.  Every operation on
the calculation path is addition, subtraction, multiplication, `min`/`max` or a
comparison, all of which are exact on `Decimal`, so they are embedded as exact
rational arithmetic (`ℚ`).  The one division in the source
(`total_tax / base_amount` for the display-only `rate` field of a progressive
deduction) is embedded as exact rational division; `Decimal` context rounding
of that quotient affects only that display field.  Python string formatting
(`f"{x:,.0f}"` and friends) is rendered with `toString` instead of
thousand-separated formatting; the structure and branching of every
`calculation_details` string is preserved, only the numeral rendering differs.
-/

namespace SalaryCompare

/-! ### String helpers

Python's `str.lower` and the `"pat" in s` substring test, used by
`UniversalTaxCalculator._update_context`, re-implemented over character lists
so that they evaluate inside the kernel. -/

/-- ASCII lower-casing of one character (`str.lower` on the names appearing in
the configurations, which are all ASCII). -/
def lowerChar (c : Char) : Char :=
  if 65 ≤ c.toNat ∧ c.toNat ≤ 90 then Char.ofNat (c.toNat + 32) else c

/-- `s.lower()` for ASCII strings. -/
def lowerStr (s : String) : String :=
  String.mk (s.data.map lowerChar)

/-- Does `pat` occur at the head of `l`? -/
def prefixMatches : List Char → List Char → Bool
  | [], _ => true
  | _ :: _, [] => false
  | a :: as, b :: bs => a == b && prefixMatches as bs

/-- Does `pat` occur anywhere inside `l`?  (`pat in l` for strings.) -/
def hasSub (pat : List Char) : List Char → Bool
  | [] => pat.isEmpty
  | c :: t => prefixMatches pat (c :: t) || hasSub pat t

/-- Python's `pat in s` substring test. -/
def strContains (s pat : String) : Bool :=
  hasSub pat.data s.data

/-! ### Calculation context

The per-calculation `context: Dict` threaded through every strategy call.
The keys actually read or written by the source are modelled as optional
fields; an absent key is `none`, `context.get(k, d)` is `(·.getD d)`. -/

structure TaxBracket where
  lower_bound : ℚ
  upper_bound : ℚ
  rate : ℚ
  taxable_amount : ℚ
  tax_amount : ℚ
  deriving Repr, DecidableEq

structure Deduction where
  name : String
  amount : ℚ
  rate : ℚ
  description : String
  calculation_details : String := ""
  deriving Repr, DecidableEq

structure Ctx where
  social_security_total : Option ℚ := none
  income_tax_amount : Option ℚ := none
  income_tax_brackets : Option (List TaxBracket) := none
  deductible_expenses : Option ℚ := none
  expense_cap_applied : Option Bool := none
  employment_income_reduction : Option ℚ := none
  net_income_before_tax : Option ℚ := none
  deriving Repr, DecidableEq

/-! ### Result accumulator (`models/tax_result.py`) -/

structure TaxResult where
  gross_salary : ℚ
  tax_base : ℚ
  net_salary : ℚ
  total_deductions : ℚ
  income_tax_brackets : List TaxBracket := []
  deductions : List Deduction := []
  country : String := ""
  employment_type : String := ""
  description : String := ""
  calculation_explanations : List (String × String) := []
  local_currency : Option String := none
  local_currency_rate : Option ℚ := none
  deriving Repr, DecidableEq

/-- `TaxResult.add_deduction`: append and recompute the running totals. -/
def TaxResult.add_deduction (r : TaxResult) (d : Deduction) : TaxResult :=
  { r with
    deductions := r.deductions ++ [d]
    total_deductions := r.total_deductions + d.amount
    net_salary := r.gross_salary - (r.total_deductions + d.amount) }

/-! ### Configuration records (`models/config.py`, `models/enums.py`) -/

inductive DeductionBase where
  | gross
  | taxable
  | tax_base
  | income_tax
  deriving Repr, DecidableEq

structure DeductionConfig where
  name : String
  description : String
  rate : ℚ
  applies_to : DeductionBase := .gross
  ceiling : Option ℚ := none
  floor : Option ℚ := none
  deriving Repr, DecidableEq

/-- Bracket configuration; `upper_bound = none` embeds `Decimal("inf")`. -/
structure TaxBracketConfig where
  lower_bound : ℚ
  upper_bound : Option ℚ
  rate : ℚ
  deriving Repr, DecidableEq

/-- Python truthiness of an `Optional[Decimal]`: `None` and `Decimal("0")` are
falsy.  Used by `FlatRateDeduction.calculate` (`if self.config.ceiling`) and by
`CappedPercentageDeduction.__init__` (`if not config.ceiling`). -/
def optTruthy : Option ℚ → Bool
  | none => false
  | some q => q != 0

/-! ### Deduction strategies (`strategies/deductions.py`)

One inductive with the five strategy classes.  A `conditional` strategy
carries its predicate over the context, as the Python class carries a
callable. -/

inductive DeductionStrategy where
  | flatRate (config : DeductionConfig)
  | progressive (config : DeductionConfig) (brackets : List TaxBracketConfig)
      (discount : ℚ)
  | cappedPercentage (config : DeductionConfig)
  | percentageOfTaxBase (config : DeductionConfig) (base_multiplier : ℚ)
  | conditional (config : DeductionConfig) (condition : Ctx → Bool)

def DeductionStrategy.config : DeductionStrategy → DeductionConfig
  | .flatRate cfg => cfg
  | .progressive cfg _ _ => cfg
  | .cappedPercentage cfg => cfg
  | .percentageOfTaxBase cfg _ => cfg
  | .conditional cfg _ => cfg

/-- `get_base_amount` of each strategy class.  The branch structure of each
Python method is kept, including the per-class fall-through defaults. -/
def DeductionStrategy.get_base_amount (s : DeductionStrategy)
    (gross_salary tax_base : ℚ) (ctx : Ctx) : ℚ :=
  match s with
  | .flatRate cfg =>
    match cfg.applies_to with
    | .gross => gross_salary
    | .taxable => tax_base
    | .tax_base => tax_base
    | .income_tax => ctx.income_tax_amount.getD 0
  | .progressive cfg _ _ =>
    match cfg.applies_to with
    | .gross => gross_salary
    | _ => tax_base
  | .cappedPercentage cfg =>
    match cfg.applies_to with
    | .gross => gross_salary
    | .taxable => tax_base
    | .tax_base => tax_base
    | .income_tax => gross_salary
  | .percentageOfTaxBase cfg m =>
    match cfg.applies_to with
    | .gross => gross_salary * m
    | .taxable => tax_base * m
    | .tax_base => tax_base * m
    | .income_tax => gross_salary * m
  | .conditional cfg _ =>
    match cfg.applies_to with
    | .income_tax => ctx.income_tax_amount.getD 0
    | .gross => gross_salary
    | _ => tax_base

/-- The bracket walk of `ProgressiveTaxDeduction.calculate`: iterate brackets,
break once `remaining_income <= 0`, replace an infinite upper bound by the
base amount, tax `min(remaining, upper - lower)` in each bracket and record a
`TaxBracket` for every strictly positive slice. -/
def progressiveWalk (base_amount : ℚ) :
    List TaxBracketConfig → ℚ → ℚ × List TaxBracket
  | [], _ => (0, [])
  | bc :: rest, remaining =>
    if remaining ≤ 0 then (0, [])
    else
      let upper := match bc.upper_bound with
        | none => base_amount
        | some u => u
      let taxable := min remaining (upper - bc.lower_bound)
      if 0 < taxable then
        let tax := taxable * bc.rate
        let t := progressiveWalk base_amount rest (remaining - taxable)
        (tax + t.1,
          { lower_bound := bc.lower_bound, upper_bound := upper, rate := bc.rate
            taxable_amount := taxable, tax_amount := tax } :: t.2)
      else
        progressiveWalk base_amount rest remaining

/-- `calculate` of each strategy class; returns the `Deduction` together with
the context as left by the call (progressive strategies write the bracket list
and the income-tax amount into it). -/
def DeductionStrategy.calculate (s : DeductionStrategy) (base_amount : ℚ)
    (ctx : Ctx) : Deduction × Ctx :=
  match s with
  | .flatRate cfg =>
    let actual_base :=
      if optTruthy cfg.ceiling then min base_amount (cfg.ceiling.getD 0)
      else base_amount
    let amount := actual_base * cfg.rate
    let details :=
      toString actual_base ++ " x " ++ toString cfg.rate ++ " = " ++
        toString amount
    let details :=
      if optTruthy cfg.ceiling && decide (cfg.ceiling.getD 0 < base_amount) then
        details ++ " (capped at " ++ toString (cfg.ceiling.getD 0) ++ ")"
      else details
    ({ name := cfg.name, amount := amount, rate := cfg.rate
       description := cfg.description, calculation_details := details }, ctx)
  | .progressive cfg brackets discount =>
    let w := progressiveWalk base_amount brackets base_amount
    let tax_before_discount := w.1
    let total_tax := max 0 (tax_before_discount - discount)
    let ctx := { ctx with
      income_tax_brackets := some w.2
      income_tax_amount := some total_tax }
    let details :=
      if 0 < discount then
        "Tax: " ++ toString tax_before_discount ++ ", Discount: " ++
          toString discount ++ ", Final: " ++ toString total_tax
      else
        "Total tax from all applicable brackets = " ++ toString total_tax
    ({ name := cfg.name, amount := total_tax
       rate := if 0 < base_amount then total_tax / base_amount else 0
       description := cfg.description, calculation_details := details }, ctx)
  | .cappedPercentage cfg =>
    -- `config.ceiling` is non-`None` by construction (`__init__` raises
    -- otherwise, modelled by `cappedPercentageInit` below), so `getD 0` never
    -- supplies its default on a validated configuration.
    let capped_base := min base_amount (cfg.ceiling.getD 0)
    let amount := capped_base * cfg.rate
    let cap_note :=
      if cfg.ceiling.getD 0 < base_amount then
        " (capped at " ++ toString (cfg.ceiling.getD 0) ++ ")"
      else ""
    let details :=
      toString capped_base ++ " x " ++ toString cfg.rate ++ " = " ++
        toString amount ++ cap_note
    ({ name := cfg.name, amount := amount, rate := cfg.rate
       description := cfg.description, calculation_details := details }, ctx)
  | .percentageOfTaxBase cfg _ =>
    let amount := base_amount * cfg.rate
    let details :=
      "Base: " ++ toString base_amount ++ ", " ++ cfg.name ++ ": " ++
        toString base_amount ++ " x " ++ toString cfg.rate ++ " = " ++
        toString amount
    ({ name := cfg.name, amount := amount, rate := cfg.rate
       description := cfg.description, calculation_details := details }, ctx)
  | .conditional cfg condition =>
    if condition ctx then
      let amount := base_amount * cfg.rate
      let details :=
        toString base_amount ++ " x " ++ toString cfg.rate ++ " = " ++
          toString amount
      ({ name := cfg.name, amount := amount, rate := cfg.rate
         description := cfg.description, calculation_details := details }, ctx)
    else
      ({ name := cfg.name, amount := 0, rate := 0
         description := cfg.description
         calculation_details := "Condition not met" }, ctx)

/-- `CappedPercentageDeduction.__init__`: raises `ValueError` when the
configuration has no (truthy) ceiling. -/
def cappedPercentageInit (cfg : DeductionConfig) :
    Except String DeductionStrategy :=
  if optTruthy cfg.ceiling then .ok (.cappedPercentage cfg)
  else .error "CappedPercentageDeduction requires a ceiling"

/-! ### Tax-base strategies (`strategies/tax_base.py`) -/

inductive TaxBaseStrategy where
  | standard
  | afterSocialSecurity
  | flatRateExpense (taxable_rate expense_cap : ℚ)
  | spanishEmploymentIncome

/-- `SpanishEmploymentIncomeTaxBase._calculate_employment_reduction`. -/
def spanishEmploymentReduction (net_income : ℚ) : ℚ :=
  let max_reduction : ℚ := 6498
  let min_reduction : ℚ := 2000
  let lower_threshold : ℚ := 14047.50
  let upper_threshold : ℚ := 19747.50
  if net_income ≤ lower_threshold then max_reduction
  else if upper_threshold ≤ net_income then min_reduction
  else
    let phase_out_range := upper_threshold - lower_threshold
    let reduction_range := max_reduction - min_reduction
    let excess := net_income - lower_threshold
    max (max_reduction - excess * reduction_range / phase_out_range)
      min_reduction

/-- `calculate` of each tax-base strategy class; returns the taxable base and
the context as left by the call. -/
def TaxBaseStrategy.calculate (s : TaxBaseStrategy) (gross_salary : ℚ)
    (ctx : Ctx) : ℚ × Ctx :=
  match s with
  | .standard => (gross_salary, ctx)
  | .afterSocialSecurity =>
    (gross_salary - ctx.social_security_total.getD 0, ctx)
  | .flatRateExpense taxable_rate expense_cap =>
    let p :=
      if gross_salary ≤ expense_cap then
        (gross_salary * taxable_rate, gross_salary * (1 - taxable_rate))
      else
        (expense_cap * taxable_rate + (gross_salary - expense_cap),
          expense_cap * (1 - taxable_rate))
    (p.1, { ctx with
      deductible_expenses := some p.2
      expense_cap_applied := some (decide (expense_cap < gross_salary)) })
  | .spanishEmploymentIncome =>
    let net_income := gross_salary - ctx.social_security_total.getD 0
    let reduction := spanishEmploymentReduction net_income
    (net_income - reduction, { ctx with
      employment_income_reduction := some reduction
      net_income_before_tax := some net_income })

/-- The `isinstance(..., AfterSocialSecurityTaxBase)` test of the engine
(`SpanishEmploymentIncomeTaxBase` is not a subclass of it). -/
def TaxBaseStrategy.isAfterSS : TaxBaseStrategy → Bool
  | .afterSocialSecurity => true
  | _ => false

/-! ### Regime configuration (`models/config.py` plus the `title` field the
configuration modules and the engine use) -/

structure TaxRegimeConfig where
  country : String
  employment_type : String
  local_currency : String
  threshold_currency : String
  region : Option String := none
  title : Option String := none
  description : String := ""
  tax_base_strategy : TaxBaseStrategy := .standard
  deduction_strategies : List DeductionStrategy := []

/-! ### The engine (`universal_calculator.py`) -/

/-- `_update_context`: accumulate matching names into the social-security
running total, and record the most recent "Income Tax" amount. -/
def update_context (ctx : Ctx) (d : Deduction) : Ctx :=
  let ctx :=
    if strContains (lowerStr d.name) "insurance" ||
        strContains (lowerStr d.name) "social" then
      { ctx with
        social_security_total :=
          some (ctx.social_security_total.getD 0 + d.amount) }
    else ctx
  if lowerStr d.name == "income tax" then
    { ctx with income_tax_amount := some d.amount }
  else ctx

/-- The engine's "only add positive-amount deductions" step
(`if deduction.amount > 0: result.add_deduction(deduction)`). -/
def addIfPositive (res : TaxResult) (d : Deduction) : TaxResult :=
  if 0 < d.amount then res.add_deduction d else res

/-- Step 1 of `calculate_net_salary` (only for the after-social-security base
strategy): run every strategy whose `applies_to` is `gross` on the gross
salary, add positive deductions, update the context, and remember the indices
already calculated. -/
def runPrePass (gross : ℚ) :
    List (Nat × DeductionStrategy) → TaxResult × Ctx × List Nat →
      TaxResult × Ctx × List Nat
  | [], st => st
  | (i, s) :: rest, (res, ctx, done) =>
    if s.config.applies_to = .gross then
      let p := s.calculate gross ctx
      runPrePass gross rest
        (addIfPositive res p.1, update_context p.2 p.1, done ++ [i])
    else
      runPrePass gross rest (res, ctx, done)

/-- Step 3 of `calculate_net_salary`: apply the remaining deductions in
configured order, skipping the indices handled by the pre-pass. -/
def runDeductionPass (gross tax_base : ℚ) (done : List Nat) :
    List (Nat × DeductionStrategy) → TaxResult × Ctx → TaxResult × Ctx
  | [], st => st
  | (i, s) :: rest, (res, ctx) =>
    if i ∈ done then runDeductionPass gross tax_base done rest (res, ctx)
    else
      let base := s.get_base_amount gross tax_base ctx
      let p := s.calculate base ctx
      runDeductionPass gross tax_base done rest
        (addIfPositive res p.1, update_context p.2 p.1)

/-- `_build_explanations`. -/
def build_explanations (tax_base : ℚ) (ctx : Ctx) : List (String × String) :=
  let ex := [("tax_base", "Taxable income = " ++ toString tax_base)]
  match ctx.deductible_expenses with
  | some e => ex ++ [("expenses", "Deductible expenses: " ++ toString e)]
  | none => ex

structure UniversalTaxCalculator where
  gross_salary : ℚ
  regime : TaxRegimeConfig
  /-- Modelled from the spec: the injected currency-rate provider supplies a
  fixed positive rate multiplier per currency pair (`rate(from, to)`), looked
  up once when the calculator is constructed; `src/` carries only a stale
  version of `services/currency.py` without the `rate` attribute the engine
  reads, so the provider is embedded as this abstract fixed rate. -/
  currency_converter : Option ℚ

/-- `UniversalTaxCalculator.__init__`: a converter is attached only when the
regime's threshold currency differs from EUR. -/
def mkCalculator (gross_salary : ℚ) (regime : TaxRegimeConfig)
    (converterRate : ℚ) : UniversalTaxCalculator :=
  { gross_salary := gross_salary
    regime := regime
    currency_converter :=
      if regime.threshold_currency ≠ "EUR" then some converterRate else none }

/-- Lines 43-59 of `calculate_net_salary`: the fresh, empty result. -/
def initResult (c : UniversalTaxCalculator) : TaxResult :=
  let titleTruthy := match c.regime.title with
    | some t => t != ""
    | none => false
  let display_country := match c.regime.title with
    | some t => if t = "" then c.regime.country else t
    | none => c.regime.country
  let res : TaxResult :=
    { gross_salary := c.gross_salary, tax_base := 0, net_salary := 0
      total_deductions := 0, country := display_country
      employment_type := if titleTruthy then "" else c.regime.employment_type
      description := c.regime.description }
  match c.currency_converter with
  | some r =>
    { res with
      local_currency := some c.regime.local_currency
      local_currency_rate := some (1 / r) }
  | none => res

/-- Step 1 of `calculate_net_salary`: the pre-pass runs only when the regime's
base strategy is the after-social-security variant; the context starts out as
the fresh empty dict of line 62. -/
def prePassStage (c : UniversalTaxCalculator) : TaxResult × Ctx × List Nat :=
  if c.regime.tax_base_strategy.isAfterSS then
    runPrePass c.gross_salary c.regime.deduction_strategies.enum
      (initResult c, {}, [])
  else (initResult c, {}, [])

/-- Step 2 of `calculate_net_salary`: the tax base, computed on the context
left by the pre-pass. -/
def engineTaxBase (c : UniversalTaxCalculator) : ℚ × Ctx :=
  c.regime.tax_base_strategy.calculate c.gross_salary (prePassStage c).2.1

/-- Step 3 of `calculate_net_salary`: the main deduction pass, on the result
carrying the stored tax base. -/
def engineMainPass (c : UniversalTaxCalculator) : TaxResult × Ctx :=
  runDeductionPass c.gross_salary (engineTaxBase c).1 (prePassStage c).2.2
    c.regime.deduction_strategies.enum
    ({ (prePassStage c).1 with tax_base := (engineTaxBase c).1 },
      (engineTaxBase c).2)

/-- Final steps of `calculate_net_salary`: transfer any staged bracket list,
set `net_salary = gross - total_deductions`, attach explanations. -/
def finalize (c : UniversalTaxCalculator) (tax_base : ℚ)
    (mp : TaxResult × Ctx) : TaxResult :=
  let res4 := match mp.2.income_tax_brackets with
    | some bs => { mp.1 with income_tax_brackets := bs }
    | none => mp.1
  { res4 with
    net_salary := c.gross_salary - res4.total_deductions
    calculation_explanations := build_explanations tax_base mp.2 }

/-- `UniversalTaxCalculator.calculate_net_salary`: fresh result, fresh empty
context, optional pre-pass, tax-base computation, main deduction pass,
bracket transfer, final net salary, explanations. -/
def calculate_net_salary (c : UniversalTaxCalculator) : TaxResult :=
  finalize c (engineTaxBase c).1 (engineMainPass c)

/-! ### Germany configuration (`configs/germany.py`) -/

def germanyBrackets : List TaxBracketConfig :=
  [ ⟨0, some 12096, 0⟩
  , ⟨12096, some 22096, 0.24⟩
  , ⟨22096, some 32096, 0.32⟩
  , ⟨32096, some 42096, 0.37⟩
  , ⟨42096, some 52096, 0.40⟩
  , ⟨52096, some 62096, 0.41⟩
  , ⟨62096, some 68480, 0.42⟩
  , ⟨68480, some 277825, 0.42⟩
  , ⟨277825, none, 0.45⟩ ]

def germanyPensionCfg : DeductionConfig :=
  { name := "Pension Insurance"
    description := "Mandatory pension insurance contribution"
    rate := 0.093, ceiling := some 96000, applies_to := .gross }

def germanyHealthCfg : DeductionConfig :=
  { name := "Health Insurance"
    description := "Mandatory health insurance contribution"
    rate := 0.091, ceiling := some 62100, applies_to := .gross }

def germanyUnemploymentCfg : DeductionConfig :=
  { name := "Unemployment Insurance"
    description := "Mandatory unemployment insurance contribution"
    rate := 0.013, ceiling := some 96000, applies_to := .gross }

def germanyCareCfg : DeductionConfig :=
  { name := "Long_Term_Care Insurance"
    description := "Mandatory long_term_care insurance contribution"
    rate := 0.02, ceiling := some 62100, applies_to := .gross }

def germanyIncomeTaxCfg : DeductionConfig :=
  { name := "Income Tax", description := "Progressive income tax"
    rate := 0, applies_to := .taxable }

def germanySoliCfg : DeductionConfig :=
  { name := "Solidarity Surcharge"
    description := "Solidarity surcharge on income tax"
    rate := 0.055, applies_to := .income_tax }

/-- The solidarity-surcharge predicate of `configs/germany.py`:
`ctx.get("income_tax_amount", 0) > 1000`. -/
def germanySoliCondition (ctx : Ctx) : Bool :=
  decide (1000 < ctx.income_tax_amount.getD 0)

def germanySoli : DeductionStrategy :=
  .conditional germanySoliCfg germanySoliCondition

def germanyStrategies : List DeductionStrategy :=
  [ .flatRate germanyPensionCfg
  , .flatRate germanyHealthCfg
  , .flatRate germanyUnemploymentCfg
  , .flatRate germanyCareCfg
  , .progressive germanyIncomeTaxCfg germanyBrackets 0
  , germanySoli ]

def germanyConfig : TaxRegimeConfig :=
  { country := "Germany", employment_type := "Salaried Employee"
    local_currency := "EUR", threshold_currency := "EUR"
    description := "German Salaried Employee Tax Regime (Tax Class 1)"
    tax_base_strategy := .afterSocialSecurity
    deduction_strategies := germanyStrategies }

/-! ### Other country configurations

The remaining regime modules under `configs/`, with the long documentation
strings abbreviated to their headline.  Configurations whose thresholds are
defined in a non-EUR currency convert them at build time through the injected
currency provider; that conversion is `convertAmount` below, parameterized by
the provider's rate for the pair. -/

/-- Modelled from the spec: `convert(amount) -> amount * rate` of the
currency-rate provider (the `services/currency.py` under `src/` is a stale
version without this interface). -/
def convertAmount (rate x : ℚ) : ℚ := x * rate

/-- `configs/czechia.py`, salaried (parameterized by the CZK→EUR rate). -/
def czechiaSalariedConfig (czk : ℚ) : TaxRegimeConfig :=
  { country := "Czechia", employment_type := "Salaried Employee"
    local_currency := "CZK", threshold_currency := "CZK"
    title := some "Czechia Salaried Employee"
    description := "Czechia Salaried Employee Tax Regime"
    tax_base_strategy := .standard
    deduction_strategies :=
      [ .flatRate
          { name := "Social Security"
            description := "Mandatory social security contribution"
            rate := 0.065, applies_to := .gross }
      , .flatRate
          { name := "Health Insurance"
            description := "Mandatory health insurance contribution"
            rate := 0.045, applies_to := .gross }
      , .progressive
          { name := "Income Tax", description := "Two-tier income tax"
            rate := 0, applies_to := .gross }
          [ ⟨0, some (convertAmount czk 1867728), 0.15⟩
          , ⟨convertAmount czk 1867728, none, 0.23⟩ ] 0 ] }

/-- `configs/czechia.py`, freelancer (60/40 rule). -/
def czechiaFreelancerConfig (czk : ℚ) : TaxRegimeConfig :=
  { country := "Czechia", employment_type := "Freelancer"
    local_currency := "CZK", threshold_currency := "CZK"
    title := some "Czechia Freelancer"
    description := "Czechia Freelancer Tax Regime (60/40 Rule)"
    tax_base_strategy :=
      .flatRateExpense 0.40 (convertAmount czk 2000000)
    deduction_strategies :=
      [ .progressive
          { name := "Income Tax"
            description :=
              "Income tax on 40 percent of gross income with standard discount"
            rate := 0, applies_to := .taxable }
          [ ⟨0, some (convertAmount czk 1867728), 0.15⟩
          , ⟨convertAmount czk 1867728, none, 0.23⟩ ]
          (convertAmount czk 30840)
      , .percentageOfTaxBase
          { name := "Social Security"
            description :=
              "Social security contribution on 50 percent of taxable income"
            rate := 0.292, applies_to := .taxable } 0.50
      , .percentageOfTaxBase
          { name := "Health Insurance"
            description :=
              "Health insurance contribution on 50 percent of taxable income"
            rate := 0.135, applies_to := .taxable } 0.50 ] }

/-- `configs/israel.py` (parameterized by the ILS→EUR rate). -/
def israelConfig (ils : ℚ) : TaxRegimeConfig :=
  { country := "Israel", employment_type := "Salaried Employee"
    local_currency := "ILS", threshold_currency := "ILS"
    title := some "Israel Salaried Employee"
    description := "Israeli Salaried Employee Tax Regime"
    tax_base_strategy := .standard
    deduction_strategies :=
      [ .flatRate
          { name := "National Insurance"
            description :=
              "Mandatory national insurance contribution (Bituach Leumi)"
            rate := 0.04, applies_to := .gross }
      , .flatRate
          { name := "Health Tax"
            description := "Mandatory health tax contribution (Mas Briut)"
            rate := 0.05, applies_to := .gross }
      , .flatRate
          { name := "Pension"
            description := "Pension fund contribution (Gemel Pensia)"
            rate := 0.06, applies_to := .gross }
      , .cappedPercentage
          { name := "Keren Hishtalmut"
            description :=
              "Advanced training fund contribution (Keren Hishtalmut)"
            rate := 0.025, ceiling := some (convertAmount ils 188544)
            applies_to := .gross }
      , .progressive
          { name := "Income Tax", description := "Progressive income tax"
            rate := 0, applies_to := .gross }
          [ ⟨0, some (convertAmount ils 83040), 0.10⟩
          , ⟨convertAmount ils 83040, some (convertAmount ils 119040), 0.14⟩
          , ⟨convertAmount ils 119040, some (convertAmount ils 185040), 0.20⟩
          , ⟨convertAmount ils 185040, some (convertAmount ils 260040), 0.31⟩
          , ⟨convertAmount ils 260040, some (convertAmount ils 560280), 0.35⟩
          , ⟨convertAmount ils 560280, some (convertAmount ils 721560), 0.47⟩
          , ⟨convertAmount ils 721560, none, 0.50⟩ ] 0 ] }

/-- The Spanish social-security deduction shared by the three regional
configurations in `configs/spain.py`. -/
def spainSocialSecurity : DeductionStrategy :=
  .flatRate
    { name := "Social Security"
      description := "Social security contributions (employee portion) + MEI"
      rate := 0.0648, ceiling := some 58914, applies_to := .gross }

def spainMadridConfig : TaxRegimeConfig :=
  { country := "Spain", employment_type := "Salaried Employee"
    local_currency := "EUR", threshold_currency := "EUR"
    title := some "Madrid Salaried Employee", region := some "Madrid"
    description := "Madrid Salaried Employee Tax Regime (Spain)"
    tax_base_strategy := .spanishEmploymentIncome
    deduction_strategies :=
      [ spainSocialSecurity
      , .progressive
          { name := "Income Tax"
            description := "Progressive income tax (IRPF)"
            rate := 0, applies_to := .gross }
          [ ⟨0, some 12450, 0.19⟩, ⟨12450, some 20200, 0.24⟩
          , ⟨20200, some 35200, 0.30⟩, ⟨35200, some 60000, 0.37⟩
          , ⟨60000, some 300000, 0.45⟩, ⟨300000, none, 0.47⟩ ] 0 ] }

def spainBarcelonaConfig : TaxRegimeConfig :=
  { country := "Spain", employment_type := "Salaried Employee"
    local_currency := "EUR", threshold_currency := "EUR"
    title := some "Barcelona Salaried Employee", region := some "Barcelona"
    description := "Barcelona Salaried Employee Tax Regime (Spain - Catalonia)"
    tax_base_strategy := .spanishEmploymentIncome
    deduction_strategies :=
      [ spainSocialSecurity
      , .progressive
          { name := "Income Tax"
            description := "Progressive income tax (IRPF) with Catalonia rates"
            rate := 0, applies_to := .gross }
          [ ⟨0, some 12450, 0.19⟩, ⟨12450, some 20200, 0.24⟩
          , ⟨20200, some 35200, 0.315⟩, ⟨35200, some 60000, 0.385⟩
          , ⟨60000, some 300000, 0.46⟩, ⟨300000, none, 0.48⟩ ] 0 ] }

def spainValenciaConfig : TaxRegimeConfig :=
  { country := "Spain", employment_type := "Salaried Employee"
    local_currency := "EUR", threshold_currency := "EUR"
    title := some "Valencia Salaried Employee", region := some "Valencia"
    description :=
      "Valencia Salaried Employee Tax Regime (Spain - Valencian Community)"
    tax_base_strategy := .spanishEmploymentIncome
    deduction_strategies :=
      [ spainSocialSecurity
      , .progressive
          { name := "Income Tax"
            description := "Progressive income tax (IRPF) with Valencia rates"
            rate := 0, applies_to := .gross }
          [ ⟨0, some 12450, 0.19⟩, ⟨12450, some 20200, 0.24⟩
          , ⟨20200, some 35200, 0.305⟩, ⟨35200, some 60000, 0.375⟩
          , ⟨60000, some 300000, 0.455⟩, ⟨300000, none, 0.475⟩ ] 0 ] }

/-- The IRS bracket schedule shared by both Portuguese configurations. -/
def portugalBrackets : List TaxBracketConfig :=
  [ ⟨0, some 7703, 0.1325⟩, ⟨7703, some 11623, 0.18⟩
  , ⟨11623, some 16472, 0.23⟩, ⟨16472, some 21321, 0.26⟩
  , ⟨21321, some 27146, 0.3275⟩, ⟨27146, some 39791, 0.37⟩
  , ⟨39791, some 51997, 0.435⟩, ⟨51997, some 81199, 0.45⟩
  , ⟨81199, none, 0.48⟩ ]

def portugalSalariedConfig : TaxRegimeConfig :=
  { country := "Portugal", employment_type := "Salaried Employee"
    local_currency := "EUR", threshold_currency := "EUR"
    title := some "Portugal Salaried Employee"
    description := "Portugal Salaried Employee Tax Regime (Standard IRS)"
    tax_base_strategy := .standard
    deduction_strategies :=
      [ .flatRate
          { name := "Social Security (TSU)"
            description := "Social security contributions (employee portion)"
            rate := 0.11, applies_to := .gross }
      , .progressive
          { name := "Income Tax (IRS)"
            description := "Progressive income tax"
            rate := 0, applies_to := .gross } portugalBrackets 0 ] }

def portugalFreelancerConfig : TaxRegimeConfig :=
  { country := "Portugal", employment_type := "Freelancer"
    local_currency := "EUR", threshold_currency := "EUR"
    title := some "Portugal Freelancer"
    description :=
      "Portugal Freelancer Tax Regime (Simplified Regime - Recibos Verdes)"
    tax_base_strategy := .flatRateExpense 0.25 999999999
    deduction_strategies :=
      [ .percentageOfTaxBase
          { name := "Social Security"
            description :=
              "Social security on 70 percent of gross income (freelancer rate)"
            rate := 0.214, applies_to := .gross } 0.70
      , .progressive
          { name := "Income Tax (IRS)"
            description :=
              "Progressive income tax on 25 percent of income"
            rate := 0, applies_to := .taxable } portugalBrackets 0 ] }

/-- `configs/romania.py` (parameterized by the RON→EUR rate; the converted
threshold is used only inside the description in the source). -/
def romaniaConfig (_ron : ℚ) : TaxRegimeConfig :=
  { country := "Romania", employment_type := "Freelancer"
    local_currency := "RON", threshold_currency := "RON"
    title := some "Romania Freelancer"
    description :=
      "Romania Freelancer Tax Regime (Microenterprise - 1 percent Revenue Tax)"
    tax_base_strategy := .standard
    deduction_strategies :=
      [ .flatRate
          { name := "Microenterprise Tax"
            description := "1 percent tax on gross revenue"
            rate := 0.01, applies_to := .gross }
      , .flatRate
          { name := "Dividend Tax (8%)"
            description := "8 percent tax on dividend distribution"
            rate := 0.08, applies_to := .gross }
      , .flatRate
          { name := "Health Insurance"
            description := "Mandatory health insurance (minimum basis)"
            rate := 0.007, applies_to := .gross }
      , .flatRate
          { name := "Social Security (Optional)"
            description := "Optional social security for pension rights"
            rate := 0.04, applies_to := .gross } ] }

/-- `configs/bulgaria.py` (parameterized by the BGN→EUR rate). -/
def bulgariaConfig (bgn : ℚ) : TaxRegimeConfig :=
  { country := "Bulgaria", employment_type := "Freelancer"
    local_currency := "BGN", threshold_currency := "BGN"
    title := some "Bulgaria Freelancer"
    description := "Bulgaria Freelancer Tax Regime (Self-Employed)"
    tax_base_strategy := .standard
    deduction_strategies :=
      [ .flatRate
          { name := "Social Security"
            description :=
              "Social security contributions (self-declared income basis)"
            rate := 0.198, ceiling := some (convertAmount bgn 72000)
            applies_to := .gross }
      , .flatRate
          { name := "Health Insurance"
            description :=
              "Health insurance contributions (self-declared income basis)"
            rate := 0.08, ceiling := some (convertAmount bgn 72000)
            applies_to := .gross }
      , .progressive
          { name := "Income Tax"
            description := "Flat 10 percent income tax on profit"
            rate := 0, applies_to := .gross }
          [ ⟨0, none, 0.10⟩ ] 0 ] }

/-- The "Supplementary Pension (Bracket 2)" deduction configuration of
`configs/france.py`: rate 8.64 percent, ceiling 376800, floor 47100 ("Only on
amount above base ceiling"). -/
def franceSupplementaryPensionB2Cfg : DeductionConfig :=
  { name := "Supplementary Pension (Bracket 2)"
    description := "Agirc-Arrco pension - above ceiling"
    rate := 0.0864, ceiling := some 376800, floor := some 47100
    applies_to := .gross }

/-! ### Regime registry (`registry.py`) -/

/-- The eleven registrations performed at the bottom of `registry.py`, in
source order, parameterized by the build-time currency rates. -/
def registryEntries (czk ils ron bgn : ℚ) :
    List (String × TaxRegimeConfig) :=
  [ ("germany-salaried", germanyConfig)
  , ("czechia-salaried", czechiaSalariedConfig czk)
  , ("czechia-freelancer", czechiaFreelancerConfig czk)
  , ("israel-salaried", israelConfig ils)
  , ("spain-madrid", spainMadridConfig)
  , ("spain-barcelona", spainBarcelonaConfig)
  , ("spain-valencia", spainValenciaConfig)
  , ("romania-freelancer-micro", romaniaConfig ron)
  , ("bulgaria-freelancer", bulgariaConfig bgn)
  , ("portugal-salaried", portugalSalariedConfig)
  , ("portugal-freelancer", portugalFreelancerConfig) ]

def regimeKeys (entries : List (String × TaxRegimeConfig)) : List String :=
  entries.map (·.1)

/-- `", ".join(keys)`. -/
def joinComma : List String → String
  | [] => ""
  | [k] => k
  | k :: rest => k ++ ", " ++ joinComma rest

/-- `TaxRegimeRegistry.get`: a `KeyError` naming the requested key and listing
every registered key when absent, the stored configuration otherwise. -/
def registryGet (entries : List (String × TaxRegimeConfig)) (key : String) :
    Except String TaxRegimeConfig :=
  match entries.lookup key with
  | none =>
    .error ("Unknown regime: " ++ key ++ ". Available regimes: " ++
      joinComma (regimeKeys entries))
  | some v => .ok v

/-! ## Verification layer -/

/-! ### Conservation (result totals) -/

def sumAmounts (l : List Deduction) : ℚ := (l.map (·.amount)).sum

/-- The accumulator invariant: the running total is the sum of the recorded
deduction amounts. -/
def conserved (r : TaxResult) : Prop :=
  r.total_deductions = sumAmounts r.deductions

lemma conserved_add_deduction {r : TaxResult} (d : Deduction)
    (h : conserved r) : conserved (r.add_deduction d) := by
  simp only [conserved, TaxResult.add_deduction, sumAmounts, List.map_append,
    List.sum_append, List.map_cons, List.map_nil, List.sum_cons,
    List.sum_nil] at *
  simp [h]

lemma add_deduction_net (r : TaxResult) (d : Deduction) :
    (r.add_deduction d).net_salary =
      (r.add_deduction d).gross_salary - (r.add_deduction d).total_deductions :=
  rfl

lemma conserved_addIfPositive {r : TaxResult} (d : Deduction)
    (h : conserved r) : conserved (addIfPositive r d) := by
  unfold addIfPositive
  split
  · exact conserved_add_deduction d h
  · exact h

lemma addIfPositive_gross (r : TaxResult) (d : Deduction) :
    (addIfPositive r d).gross_salary = r.gross_salary := by
  unfold addIfPositive
  split <;> rfl

lemma runPrePass_conserved (g : ℚ) :
    ∀ (l : List (Nat × DeductionStrategy)) (res : TaxResult) (ctx : Ctx)
      (done : List Nat), conserved res →
      conserved (runPrePass g l (res, ctx, done)).1 ∧
        (runPrePass g l (res, ctx, done)).1.gross_salary = res.gross_salary := by
  intro l
  induction l with
  | nil => intro res ctx done h; exact ⟨h, rfl⟩
  | cons p rest ih =>
    intro res ctx done h
    obtain ⟨i, s⟩ := p
    by_cases hc : s.config.applies_to = .gross
    · simp only [runPrePass, if_pos hc]
      have := ih (addIfPositive res (s.calculate g ctx).1)
        (update_context (s.calculate g ctx).2 (s.calculate g ctx).1)
        (done ++ [i]) (conserved_addIfPositive _ h)
      exact ⟨this.1, this.2.trans (addIfPositive_gross _ _)⟩
    · simp only [runPrePass, if_neg hc]
      exact ih res ctx done h

lemma runDeductionPass_conserved (g tb : ℚ) (done : List Nat) :
    ∀ (l : List (Nat × DeductionStrategy)) (res : TaxResult) (ctx : Ctx),
      conserved res →
      conserved (runDeductionPass g tb done l (res, ctx)).1 ∧
        (runDeductionPass g tb done l (res, ctx)).1.gross_salary =
          res.gross_salary := by
  intro l
  induction l with
  | nil => intro res ctx h; exact ⟨h, rfl⟩
  | cons p rest ih =>
    intro res ctx h
    obtain ⟨i, s⟩ := p
    by_cases hm : i ∈ done
    · simp only [runDeductionPass, if_pos hm]
      exact ih res ctx h
    · simp only [runDeductionPass, if_neg hm]
      have := ih
        (addIfPositive res (s.calculate (s.get_base_amount g tb ctx) ctx).1)
        (update_context (s.calculate (s.get_base_amount g tb ctx) ctx).2
          (s.calculate (s.get_base_amount g tb ctx) ctx).1)
        (conserved_addIfPositive _ h)
      exact ⟨this.1, this.2.trans (addIfPositive_gross _ _)⟩

lemma initResult_conserved (c : UniversalTaxCalculator) :
    conserved (initResult c) ∧ (initResult c).gross_salary = c.gross_salary := by
  unfold initResult conserved sumAmounts
  cases c.currency_converter <;> exact ⟨rfl, rfl⟩

lemma prePassStage_conserved (c : UniversalTaxCalculator) :
    conserved (prePassStage c).1 ∧
      (prePassStage c).1.gross_salary = c.gross_salary := by
  obtain ⟨h0, hg0⟩ := initResult_conserved c
  unfold prePassStage
  split
  · obtain ⟨a, b⟩ := runPrePass_conserved c.gross_salary
      c.regime.deduction_strategies.enum (initResult c) {} [] h0
    exact ⟨a, b.trans hg0⟩
  · exact ⟨h0, hg0⟩

lemma engineMainPass_conserved (c : UniversalTaxCalculator) :
    conserved (engineMainPass c).1 ∧
      (engineMainPass c).1.gross_salary = c.gross_salary := by
  obtain ⟨h1, hg1⟩ := prePassStage_conserved c
  unfold engineMainPass
  obtain ⟨a, b⟩ := runDeductionPass_conserved c.gross_salary
    (engineTaxBase c).1 (prePassStage c).2.2 c.regime.deduction_strategies.enum
    { (prePassStage c).1 with tax_base := (engineTaxBase c).1 }
    (engineTaxBase c).2 h1
  exact ⟨a, b.trans hg1⟩

lemma finalize_fields (c : UniversalTaxCalculator) (tb : ℚ)
    (mp : TaxResult × Ctx) :
    (finalize c tb mp).total_deductions = mp.1.total_deductions ∧
      (finalize c tb mp).deductions = mp.1.deductions ∧
      (finalize c tb mp).gross_salary = mp.1.gross_salary ∧
      (finalize c tb mp).net_salary =
        c.gross_salary - mp.1.total_deductions := by
  unfold finalize
  cases mp.2.income_tax_brackets <;> exact ⟨rfl, rfl, rfl, rfl⟩

lemma calculate_net_salary_spec (c : UniversalTaxCalculator) :
    (calculate_net_salary c).gross_salary = c.gross_salary ∧
      (calculate_net_salary c).net_salary =
        c.gross_salary - (calculate_net_salary c).total_deductions ∧
      conserved (calculate_net_salary c) := by
  obtain ⟨h3, hg3⟩ := engineMainPass_conserved c
  obtain ⟨ht, hd, hg, hn⟩ :=
    finalize_fields c (engineTaxBase c).1 (engineMainPass c)
  unfold calculate_net_salary
  refine ⟨hg.trans hg3, ?_, ?_⟩
  · rw [hn, ht]
  · unfold conserved at h3 ⊢
    rw [ht, hd]
    exact h3

/-- C1: for every result returned by `UniversalTaxCalculator.calculate_net_salary`
and after every `add_deduction` mutation during its construction,
`net_salary = gross_salary - total_deductions` and `total_deductions` is the
sum of the recorded deduction amounts, exactly, for every gross salary in
`[0, 10_000_000]`. -/
theorem c1_conservation (regime : TaxRegimeConfig) (converterRate g : ℚ)
    (h0 : 0 ≤ g) (h1 : g ≤ 10000000) :
    ((calculate_net_salary (mkCalculator g regime converterRate)).gross_salary
        = g ∧
      (calculate_net_salary (mkCalculator g regime converterRate)).net_salary =
        g - (calculate_net_salary
          (mkCalculator g regime converterRate)).total_deductions ∧
      (calculate_net_salary
          (mkCalculator g regime converterRate)).total_deductions =
        sumAmounts (calculate_net_salary
          (mkCalculator g regime converterRate)).deductions) ∧
    ∀ (r : TaxResult) (d : Deduction),
      r.total_deductions = sumAmounts r.deductions →
      (r.add_deduction d).total_deductions =
          sumAmounts (r.add_deduction d).deductions ∧
        (r.add_deduction d).net_salary =
          (r.add_deduction d).gross_salary -
            (r.add_deduction d).total_deductions := by
  obtain ⟨hg, hn, hc⟩ :=
    calculate_net_salary_spec (mkCalculator g regime converterRate)
  refine ⟨⟨hg, hn, hc⟩, fun r d h => ?_⟩
  exact ⟨conserved_add_deduction d h, add_deduction_net r d⟩

theorem c1_conservation_witness :
    (0:ℚ) ≤ 50000 ∧ (50000:ℚ) ≤ 10000000 ∧
      (calculate_net_salary (mkCalculator 50000 germanyConfig 1)).net_salary =
        50000 - (calculate_net_salary
          (mkCalculator 50000 germanyConfig 1)).total_deductions :=
  ⟨by norm_num, by norm_num,
    (c1_conservation germanyConfig 1 50000 (by norm_num)
      (by norm_num)).1.2.1⟩

/-! ### Progressive bracket walk: exactness, telescoping sum, closed form -/

lemma progressiveWalk_nonpos (b rem : ℚ) (bs : List TaxBracketConfig)
    (h : rem ≤ 0) : progressiveWalk b bs rem = (0, []) := by
  cases bs with
  | nil => rfl
  | cons bc rest => simp [progressiveWalk, if_pos h]

lemma progressiveWalk_tax_exact (bs : List TaxBracketConfig) :
    ∀ (b rem : ℚ) (tb : TaxBracket), tb ∈ (progressiveWalk b bs rem).2 →
      tb.tax_amount = tb.taxable_amount * tb.rate := by
  induction bs with
  | nil => intro b rem tb h; simp [progressiveWalk] at h
  | cons bc rest ih =>
    intro b rem tb h
    by_cases h0 : rem ≤ 0
    · rw [progressiveWalk_nonpos _ _ _ h0] at h
      simp at h
    · simp only [progressiveWalk, if_neg h0] at h
      split at h
      · rcases List.mem_cons.mp h with he | hm
        · rw [he]
        · exact ih b _ tb hm
      · exact ih b rem tb h

/-- Well-formedness of a configured bracket schedule: the lower bounds start
at `l`, each bracket's upper bound is the next bracket's lower bound, and the
final bracket is unbounded.  Every schedule in `configs/` satisfies this with
`l = 0`. -/
def contiguousFromB (l : ℚ) : List TaxBracketConfig → Bool
  | [] => false
  | [bc] => bc.lower_bound == l && bc.upper_bound == none
  | bc :: r0 :: rs =>
    bc.lower_bound == l &&
      match bc.upper_bound with
      | none => false
      | some u => decide (l ≤ u) && contiguousFromB u (r0 :: rs)

/-- One-step unfolding of the bracket walk on a non-empty schedule. -/
lemma progressiveWalk_cons (b rem : ℚ) (bc : TaxBracketConfig)
    (rest : List TaxBracketConfig) :
    progressiveWalk b (bc :: rest) rem =
      if rem ≤ 0 then (0, [])
      else
        let upper := match bc.upper_bound with
          | none => b
          | some u => u
        let taxable := min rem (upper - bc.lower_bound)
        if 0 < taxable then
          (taxable * bc.rate + (progressiveWalk b rest (rem - taxable)).1,
            { lower_bound := bc.lower_bound, upper_bound := upper
              rate := bc.rate, taxable_amount := taxable
              tax_amount := taxable * bc.rate } ::
              (progressiveWalk b rest (rem - taxable)).2)
        else progressiveWalk b rest rem := rfl

lemma progressiveWalk_sum (bs : List TaxBracketConfig) :
    ∀ (l b : ℚ), contiguousFromB l bs = true →
      (((progressiveWalk b bs (b - l)).2.map (·.taxable_amount)).sum) =
        max (b - l) 0 := by
  induction bs with
  | nil => intro l b hc; simp [contiguousFromB] at hc
  | cons bc rest ih =>
    intro l b hc
    cases hu : bc.upper_bound with
    | none =>
      cases rest with
      | nil =>
        simp only [contiguousFromB, hu, Bool.and_eq_true, beq_iff_eq] at hc
        obtain ⟨hl, -⟩ := hc
        by_cases hbl : b - l ≤ 0
        · rw [progressiveWalk_nonpos _ _ _ hbl]
          simp [max_eq_right hbl]
        · push_neg at hbl
          have htx : min (b - l) (b - bc.lower_bound) = b - l := by
            rw [hl, min_self]
          rw [progressiveWalk_cons]
          simp only [if_neg (not_le.mpr hbl), hu, htx, if_pos hbl]
          simp [progressiveWalk, max_eq_left (le_of_lt hbl)]
      | cons r0 rs =>
        simp [contiguousFromB, hu] at hc
    | some u =>
      cases rest with
      | nil => simp [contiguousFromB, hu] at hc
      | cons r0 rs =>
        simp only [contiguousFromB, hu, Bool.and_eq_true, beq_iff_eq,
          decide_eq_true_eq] at hc
        obtain ⟨hl, hlu, hrest⟩ := hc
        by_cases hbl : b - l ≤ 0
        · rw [progressiveWalk_nonpos _ _ _ hbl]
          simp [max_eq_right hbl]
        · push_neg at hbl
          by_cases hub : u ≤ b
          · -- the bracket is filled completely
            have htx : min (b - l) (u - bc.lower_bound) = u - l := by
              rw [hl]
              exact min_eq_right (by linarith)
            rcases lt_or_eq_of_le (by linarith : (0:ℚ) ≤ u - l) with hpos | hzero
            · rw [progressiveWalk_cons]
              simp only [if_neg (not_le.mpr hbl), hu, htx, if_pos hpos]
              have hrem : b - l - (u - l) = b - u := by ring
              rw [hrem]
              have hih := ih u b hrest
              simp only [List.map_cons, List.sum_cons]
              rw [hih, max_eq_left (by linarith), max_eq_left (by linarith)]
              ring
            · -- zero-width bracket: nothing recorded, continue
              have hul : u = l := by linarith
              rw [progressiveWalk_cons]
              simp only [if_neg (not_le.mpr hbl), hu, htx, ← hzero,
                lt_self_iff_false, if_false]
              have hih := ih u b hrest
              rw [hul] at hih
              exact hih
          · -- the base ends inside this bracket
            push_neg at hub
            have htx : min (b - l) (u - bc.lower_bound) = b - l := by
              rw [hl]
              exact min_eq_left (by linarith)
            rw [progressiveWalk_cons]
            simp only [if_neg (not_le.mpr hbl), hu, htx, if_pos hbl]
            have hrem : b - l - (b - l) = 0 := by ring
            rw [hrem, progressiveWalk_nonpos _ _ _ (le_refl 0)]
            simp [max_eq_left (le_of_lt hbl)]

/-- Closed form of the bracket walk on a contiguous schedule:
`Σ rateᵢ * (min b upperᵢ - min b lowerᵢ)`, the unbounded bracket taxing
everything above its lower bound. -/
def bracketsTaxFrom (b : ℚ) : List TaxBracketConfig → ℚ
  | [] => 0
  | bc :: rest =>
    match bc.upper_bound with
    | none => bc.rate * (b - min b bc.lower_bound)
    | some u => bc.rate * (min b u - min b bc.lower_bound) +
        bracketsTaxFrom b rest

/-- One-step unfolding of the closed form. -/
lemma bracketsTaxFrom_cons (b : ℚ) (bc : TaxBracketConfig)
    (rest : List TaxBracketConfig) :
    bracketsTaxFrom b (bc :: rest) =
      match bc.upper_bound with
      | none => bc.rate * (b - min b bc.lower_bound)
      | some u => bc.rate * (min b u - min b bc.lower_bound) +
          bracketsTaxFrom b rest := rfl

lemma bracketsTaxFrom_zero_of_le (bs : List TaxBracketConfig) :
    ∀ (l b : ℚ), contiguousFromB l bs = true → b ≤ l →
      bracketsTaxFrom b bs = 0 := by
  induction bs with
  | nil => intro l b hc _; rfl
  | cons bc rest ih =>
    intro l b hc hb
    cases hu : bc.upper_bound with
    | none =>
      cases rest with
      | nil =>
        simp only [contiguousFromB, hu, Bool.and_eq_true, beq_iff_eq] at hc
        simp [bracketsTaxFrom, hu, hc.1, min_eq_left hb]
      | cons r0 rs => simp [contiguousFromB, hu] at hc
    | some u =>
      cases rest with
      | nil => simp [contiguousFromB, hu] at hc
      | cons r0 rs =>
        simp only [contiguousFromB, hu, Bool.and_eq_true, beq_iff_eq,
          decide_eq_true_eq] at hc
        obtain ⟨hl, hlu, hrest⟩ := hc
        have h1 : min b u = b := min_eq_left (by linarith)
        have h2 : min b bc.lower_bound = b := by
          rw [hl]; exact min_eq_left hb
        rw [bracketsTaxFrom_cons b bc (r0 :: rs)]
        simp only [hu]
        rw [h1, h2, ih u b hrest (by linarith)]
        ring

lemma progressiveWalk_eq_closed (bs : List TaxBracketConfig) :
    ∀ (l b : ℚ), contiguousFromB l bs = true →
      (progressiveWalk b bs (b - l)).1 = bracketsTaxFrom b bs := by
  induction bs with
  | nil => intro l b hc; simp [contiguousFromB] at hc
  | cons bc rest ih =>
    intro l b hc
    cases hu : bc.upper_bound with
    | none =>
      cases rest with
      | nil =>
        simp only [contiguousFromB, hu, Bool.and_eq_true, beq_iff_eq] at hc
        obtain ⟨hl, -⟩ := hc
        by_cases hbl : b - l ≤ 0
        · rw [progressiveWalk_nonpos _ _ _ hbl]
          simp [bracketsTaxFrom, hu, hl, min_eq_left (by linarith : b ≤ l)]
        · push_neg at hbl
          have htx : min (b - l) (b - bc.lower_bound) = b - l := by
            rw [hl, min_self]
          rw [progressiveWalk_cons]
          simp only [if_neg (not_le.mpr hbl), hu, htx, if_pos hbl]
          simp [progressiveWalk, bracketsTaxFrom, hu, hl,
            min_eq_right (by linarith : l ≤ b)]
          ring
      | cons r0 rs => simp [contiguousFromB, hu] at hc
    | some u =>
      cases rest with
      | nil => simp [contiguousFromB, hu] at hc
      | cons r0 rs =>
        simp only [contiguousFromB, hu, Bool.and_eq_true, beq_iff_eq,
          decide_eq_true_eq] at hc
        obtain ⟨hl, hlu, hrest⟩ := hc
        by_cases hbl : b - l ≤ 0
        · rw [progressiveWalk_nonpos _ _ _ hbl]
          have h1 : min b u = b := min_eq_left (by linarith)
          have h2 : min b bc.lower_bound = b := by
            rw [hl]; exact min_eq_left (by linarith)
          rw [bracketsTaxFrom_cons b bc (r0 :: rs)]
          simp only [hu]
          rw [h1, h2, bracketsTaxFrom_zero_of_le _ u b hrest (by linarith)]
          ring
        · push_neg at hbl
          by_cases hub : u ≤ b
          · have htx : min (b - l) (u - bc.lower_bound) = u - l := by
              rw [hl]
              exact min_eq_right (by linarith)
            have h1 : min b u = u := min_eq_right hub
            have h2 : min b bc.lower_bound = bc.lower_bound := by
              rw [hl]; exact min_eq_right (by linarith)
            by_cases hpos : 0 < u - l
            · rw [progressiveWalk_cons]
              simp only [if_neg (not_le.mpr hbl), hu, htx, if_pos hpos]
              have hrem : b - l - (u - l) = b - u := by ring
              rw [hrem, ih u b hrest, bracketsTaxFrom_cons b bc (r0 :: rs)]
              simp only [hu]
              rw [h1, h2, hl]
              ring
            · have hul : u = l := by linarith
              rw [progressiveWalk_cons]
              simp only [if_neg (not_le.mpr hbl), hu, htx, if_neg hpos]
              have hih := ih u b hrest
              rw [hul] at hih
              rw [hih, bracketsTaxFrom_cons b bc (r0 :: rs)]
              simp only [hu]
              have h1w : min b u = u := min_eq_right (by linarith)
              rw [h1w, h2, hl, hul]
              ring
          · push_neg at hub
            have htx : min (b - l) (u - bc.lower_bound) = b - l := by
              rw [hl]
              exact min_eq_left (by linarith)
            have h1 : min b u = b := min_eq_left (le_of_lt hub)
            have h2 : min b bc.lower_bound = bc.lower_bound := by
              rw [hl]; exact min_eq_right (by linarith)
            rw [progressiveWalk_cons]
            simp only [if_neg (not_le.mpr hbl), hu, htx, if_pos hbl]
            have hrem : b - l - (b - l) = 0 := by ring
            rw [hrem, progressiveWalk_nonpos _ _ _ (le_refl 0),
              bracketsTaxFrom_cons b bc (r0 :: rs)]
            simp only [hu]
            rw [h1, h2, hl,
              bracketsTaxFrom_zero_of_le _ u b hrest (le_of_lt hub)]
            ring

/-- Every fixed-currency bracket schedule in `configs/` is contiguous from
zero with an unbounded top bracket. -/
lemma fixed_schedules_contiguous :
    contiguousFromB 0 germanyBrackets = true ∧
      contiguousFromB 0 portugalBrackets = true ∧
      contiguousFromB 0 [⟨0, some 12450, 0.19⟩, ⟨12450, some 20200, 0.24⟩,
        ⟨20200, some 35200, 0.30⟩, ⟨35200, some 60000, 0.37⟩,
        ⟨60000, some 300000, 0.45⟩, ⟨300000, none, 0.47⟩] = true ∧
      contiguousFromB 0 [(⟨0, none, 0.10⟩ : TaxBracketConfig)] = true := by
  refine ⟨by decide, by decide, by decide, by decide⟩

/-- The currency-converted schedules (Czechia, Israel) are contiguous for
every non-negative conversion rate. -/
lemma converted_schedules_contiguous (r : ℚ) (hr : 0 ≤ r) :
    contiguousFromB 0 [⟨0, some (convertAmount r 1867728), 0.15⟩,
        ⟨convertAmount r 1867728, none, 0.23⟩] = true ∧
      contiguousFromB 0
        [ ⟨0, some (convertAmount r 83040), 0.10⟩
        , ⟨convertAmount r 83040, some (convertAmount r 119040), 0.14⟩
        , ⟨convertAmount r 119040, some (convertAmount r 185040), 0.20⟩
        , ⟨convertAmount r 185040, some (convertAmount r 260040), 0.31⟩
        , ⟨convertAmount r 260040, some (convertAmount r 560280), 0.35⟩
        , ⟨convertAmount r 560280, some (convertAmount r 721560), 0.47⟩
        , ⟨convertAmount r 721560, none, 0.50⟩ ] = true := by
  unfold convertAmount
  constructor <;> simp [contiguousFromB] <;> and_intros <;> linarith

/-- C3: every `TaxBracket` produced by `ProgressiveTaxDeduction.calculate` has
`tax_amount = taxable_amount * rate` exactly, and on a contiguous schedule
the recorded `taxable_amount`s of one invocation sum to the base amount
passed to that invocation; the recorded list is what the invocation stages
into the context. -/
theorem c3_bracket_exactness (cfg : DeductionConfig)
    (bs : List TaxBracketConfig) (discount base : ℚ) (ctx : Ctx)
    (hc : contiguousFromB 0 bs = true) (hb : 0 ≤ base) :
    (∀ tb ∈ (progressiveWalk base bs base).2,
        tb.tax_amount = tb.taxable_amount * tb.rate) ∧
      ((progressiveWalk base bs base).2.map (·.taxable_amount)).sum = base ∧
      ((DeductionStrategy.progressive cfg bs discount).calculate base
          ctx).2.income_tax_brackets =
        some (progressiveWalk base bs base).2 := by
  refine ⟨fun tb h => progressiveWalk_tax_exact bs base base tb h, ?_, rfl⟩
  have := progressiveWalk_sum bs 0 base hc
  rw [sub_zero] at this
  rw [this]
  exact max_eq_left hb

theorem c3_bracket_exactness_witness :
    contiguousFromB 0 germanyBrackets = true ∧ (0:ℚ) ≤ 50000 ∧
      ((progressiveWalk 50000 germanyBrackets 50000).2.map
        (·.taxable_amount)).sum = 50000 :=
  ⟨by decide, by norm_num,
    (c3_bracket_exactness germanyIncomeTaxCfg germanyBrackets 0 50000 {}
      (by decide) (by norm_num)).2.1⟩

/-! ### Monotonicity of the closed form -/

def ratesLeB (rmax : ℚ) : List TaxBracketConfig → Bool
  | [] => true
  | bc :: rest =>
    decide (0 ≤ bc.rate) && decide (bc.rate ≤ rmax) && ratesLeB rmax rest

lemma min_lip (b1 b2 c : ℚ) (h : b1 ≤ b2) :
    min b2 c - min b1 c ≤ b2 - b1 := by
  simp only [min_def]
  split_ifs <;> linarith

lemma min_mono (b1 b2 c : ℚ) (h : b1 ≤ b2) : min b1 c ≤ min b2 c :=
  min_le_min h (le_refl c)

lemma min_window_mono (b1 b2 l u : ℚ) (h : b1 ≤ b2) (hlu : l ≤ u) :
    min b1 u - min b1 l ≤ min b2 u - min b2 l := by
  simp only [min_def]
  split_ifs <;> linarith

lemma bracketsTaxFrom_mono_lip (rmax : ℚ) (bs : List TaxBracketConfig) :
    ∀ (l b1 b2 : ℚ), contiguousFromB l bs = true → ratesLeB rmax bs = true →
      b1 ≤ b2 →
      0 ≤ bracketsTaxFrom b2 bs - bracketsTaxFrom b1 bs ∧
        bracketsTaxFrom b2 bs - bracketsTaxFrom b1 bs ≤
          rmax * ((b2 - min b2 l) - (b1 - min b1 l)) := by
  induction bs with
  | nil => intro l b1 b2 hc; simp [contiguousFromB] at hc
  | cons bc rest ih =>
    intro l b1 b2 hc hr hb
    simp only [ratesLeB, Bool.and_eq_true, decide_eq_true_eq] at hr
    obtain ⟨⟨hr0, hr1⟩, hrrest⟩ := hr
    cases hu : bc.upper_bound with
    | none =>
      cases rest with
      | nil =>
        simp only [contiguousFromB, hu, Bool.and_eq_true, beq_iff_eq] at hc
        obtain ⟨hl, -⟩ := hc
        rw [bracketsTaxFrom_cons b1 bc [], bracketsTaxFrom_cons b2 bc []]
        simp only [hu]
        rw [hl]
        have hX : 0 ≤ (b2 - min b2 l) - (b1 - min b1 l) := by
          have := min_lip b1 b2 l hb
          linarith
        have e : bc.rate * (b2 - min b2 l) - bc.rate * (b1 - min b1 l) =
            bc.rate * ((b2 - min b2 l) - (b1 - min b1 l)) := by ring
        constructor
        · have := mul_nonneg hr0 hX
          linarith
        · have := mul_le_mul_of_nonneg_right hr1 hX
          linarith
      | cons r0 rs => simp [contiguousFromB, hu] at hc
    | some u =>
      cases rest with
      | nil => simp [contiguousFromB, hu] at hc
      | cons r0 rs =>
        simp only [contiguousFromB, hu, Bool.and_eq_true, beq_iff_eq,
          decide_eq_true_eq] at hc
        obtain ⟨hl, hlu, hrest⟩ := hc
        obtain ⟨ihl, ihu⟩ := ih u b1 b2 hrest hrrest hb
        rw [bracketsTaxFrom_cons b1 bc (r0 :: rs),
          bracketsTaxFrom_cons b2 bc (r0 :: rs)]
        simp only [hu]
        rw [hl]
        have hW : 0 ≤ (min b2 u - min b2 l) - (min b1 u - min b1 l) := by
          have := min_window_mono b1 b2 l u hb hlu
          linarith
        have e : (bc.rate * (min b2 u - min b2 l) +
              bracketsTaxFrom b2 (r0 :: rs)) -
            (bc.rate * (min b1 u - min b1 l) +
              bracketsTaxFrom b1 (r0 :: rs)) =
            bc.rate * ((min b2 u - min b2 l) - (min b1 u - min b1 l)) +
              (bracketsTaxFrom b2 (r0 :: rs) -
                bracketsTaxFrom b1 (r0 :: rs)) := by ring
        have e2 : rmax * ((min b2 u - min b2 l) - (min b1 u - min b1 l)) +
            rmax * ((b2 - min b2 u) - (b1 - min b1 u)) =
            rmax * ((b2 - min b2 l) - (b1 - min b1 l)) := by ring
        constructor
        · have := mul_nonneg hr0 hW
          linarith
        · have := mul_le_mul_of_nonneg_right hr1 hW
          linarith

lemma progressiveWalk_nonneg (bs : List TaxBracketConfig)
    (hr : ∀ bc ∈ bs, 0 ≤ bc.rate) :
    ∀ (b rem : ℚ), 0 ≤ (progressiveWalk b bs rem).1 := by
  induction bs with
  | nil => intro b rem; simp [progressiveWalk]
  | cons bc rest ih =>
    intro b rem
    have hrh : 0 ≤ bc.rate := hr bc (List.mem_cons_self bc rest)
    have hrt : ∀ bc ∈ rest, 0 ≤ bc.rate :=
      fun x hx => hr x (List.mem_cons_of_mem bc hx)
    rw [progressiveWalk_cons]
    split
    · norm_num
    · simp only []
      split
      case _ ht =>
        have := ih hrt b (rem - min rem ((match bc.upper_bound with
          | none => b
          | some u => u) - bc.lower_bound))
        have : 0 ≤ min rem ((match bc.upper_bound with
            | none => b
            | some u => u) - bc.lower_bound) * bc.rate :=
          mul_nonneg (le_of_lt ht) hrh
        simp only []
        positivity
      case _ => exact ih hrt b rem

/-! ### Symbolic evaluation of the Germany pipeline (without the surcharge) -/

lemma addIfPositive_total (res : TaxResult) (d : Deduction)
    (h : 0 ≤ d.amount) :
    (addIfPositive res d).total_deductions =
      res.total_deductions + d.amount := by
  unfold addIfPositive
  split
  · rfl
  case _ hneg =>
    have hz : d.amount = 0 := le_antisymm (not_lt.mp hneg) h
    rw [hz, add_zero]

lemma flatRate_calc_ceiling (cfg : DeductionConfig) (g : ℚ) (ctx : Ctx)
    (h : optTruthy cfg.ceiling = true) :
    ((DeductionStrategy.flatRate cfg).calculate g ctx).1.amount =
        min g (cfg.ceiling.getD 0) * cfg.rate ∧
      ((DeductionStrategy.flatRate cfg).calculate g ctx).1.name = cfg.name ∧
      ((DeductionStrategy.flatRate cfg).calculate g ctx).2 = ctx := by
  simp [DeductionStrategy.calculate, h]

lemma update_context_social_only (ctx : Ctx) (d : Deduction)
    (h1 : (strContains (lowerStr d.name) "insurance" ||
      strContains (lowerStr d.name) "social") = true)
    (h2 : (lowerStr d.name == "income tax") = false) :
    update_context ctx d =
      { ctx with
        social_security_total :=
          some (ctx.social_security_total.getD 0 + d.amount) } := by
  simp [update_context, h1, h2]

lemma update_context_income_only (ctx : Ctx) (d : Deduction)
    (h1 : (strContains (lowerStr d.name) "insurance" ||
      strContains (lowerStr d.name) "social") = false)
    (h2 : (lowerStr d.name == "income tax") = true) :
    update_context ctx d = { ctx with income_tax_amount := some d.amount } := by
  simp [update_context, h1, h2]

/-- The Germany regime with its conditional solidarity surcharge removed:
the four flat-rate social contributions and the progressive income tax. -/
def germanyNoSurchargeConfig : TaxRegimeConfig :=
  { germanyConfig with deduction_strategies := germanyStrategies.take 5 }

/-- Net salary of the surcharge-free Germany pipeline. -/
def netDE (g : ℚ) : ℚ :=
  (calculate_net_salary (mkCalculator g germanyNoSurchargeConfig 1)).net_salary

/-- The four German social-security amounts at gross `g`. -/
def ssDE (g : ℚ) : ℚ :=
  min g 96000 * 0.093 + min g 62100 * 0.091 + min g 96000 * 0.013 +
    min g 62100 * 0.02

/-- The German progressive income tax in closed form. -/
def taxDE (b : ℚ) : ℚ := bracketsTaxFrom b germanyBrackets

lemma germany_prepass_eval (g : ℚ) (hg : 0 ≤ g) (res : TaxResult) :
    (runPrePass g (germanyStrategies.take 5).enum
          (res, {}, [])).1.total_deductions =
        res.total_deductions + ssDE g ∧
      (runPrePass g (germanyStrategies.take 5).enum (res, {}, [])).2.1 =
        ({ social_security_total := some (ssDE g) } : Ctx) ∧
      (runPrePass g (germanyStrategies.take 5).enum (res, {}, [])).2.2 =
        [0, 1, 2, 3] := by
  have henum : (germanyStrategies.take 5).enum =
      [ (0, .flatRate germanyPensionCfg)
      , (1, .flatRate germanyHealthCfg)
      , (2, .flatRate germanyUnemploymentCfg)
      , (3, .flatRate germanyCareCfg)
      , (4, .progressive germanyIncomeTaxCfg germanyBrackets 0) ] := rfl
  have hPa : ∀ ctx : Ctx,
      ((DeductionStrategy.flatRate germanyPensionCfg).calculate
        g ctx).1.amount = min g 96000 * 0.093 :=
    fun ctx => (flatRate_calc_ceiling germanyPensionCfg g ctx (by decide)).1
  have hPn : ∀ ctx : Ctx,
      ((DeductionStrategy.flatRate germanyPensionCfg).calculate
        g ctx).1.name = "Pension Insurance" :=
    fun ctx =>
      (flatRate_calc_ceiling germanyPensionCfg g ctx (by decide)).2.1
  have hPc : ∀ ctx : Ctx,
      ((DeductionStrategy.flatRate germanyPensionCfg).calculate g ctx).2 =
        ctx :=
    fun ctx =>
      (flatRate_calc_ceiling germanyPensionCfg g ctx (by decide)).2.2
  have hHa : ∀ ctx : Ctx,
      ((DeductionStrategy.flatRate germanyHealthCfg).calculate
        g ctx).1.amount = min g 62100 * 0.091 :=
    fun ctx => (flatRate_calc_ceiling germanyHealthCfg g ctx (by decide)).1
  have hHn : ∀ ctx : Ctx,
      ((DeductionStrategy.flatRate germanyHealthCfg).calculate
        g ctx).1.name = "Health Insurance" :=
    fun ctx => (flatRate_calc_ceiling germanyHealthCfg g ctx (by decide)).2.1
  have hHc : ∀ ctx : Ctx,
      ((DeductionStrategy.flatRate germanyHealthCfg).calculate g ctx).2 =
        ctx :=
    fun ctx => (flatRate_calc_ceiling germanyHealthCfg g ctx (by decide)).2.2
  have hUa : ∀ ctx : Ctx,
      ((DeductionStrategy.flatRate germanyUnemploymentCfg).calculate
        g ctx).1.amount = min g 96000 * 0.013 :=
    fun ctx =>
      (flatRate_calc_ceiling germanyUnemploymentCfg g ctx (by decide)).1
  have hUn : ∀ ctx : Ctx,
      ((DeductionStrategy.flatRate germanyUnemploymentCfg).calculate
        g ctx).1.name = "Unemployment Insurance" :=
    fun ctx =>
      (flatRate_calc_ceiling germanyUnemploymentCfg g ctx (by decide)).2.1
  have hUc : ∀ ctx : Ctx,
      ((DeductionStrategy.flatRate germanyUnemploymentCfg).calculate
        g ctx).2 = ctx :=
    fun ctx =>
      (flatRate_calc_ceiling germanyUnemploymentCfg g ctx (by decide)).2.2
  have hCa : ∀ ctx : Ctx,
      ((DeductionStrategy.flatRate germanyCareCfg).calculate
        g ctx).1.amount = min g 62100 * 0.02 :=
    fun ctx => (flatRate_calc_ceiling germanyCareCfg g ctx (by decide)).1
  have hCn : ∀ ctx : Ctx,
      ((DeductionStrategy.flatRate germanyCareCfg).calculate
        g ctx).1.name = "Long_Term_Care Insurance" :=
    fun ctx => (flatRate_calc_ceiling germanyCareCfg g ctx (by decide)).2.1
  have hCc : ∀ ctx : Ctx,
      ((DeductionStrategy.flatRate germanyCareCfg).calculate g ctx).2 =
        ctx :=
    fun ctx => (flatRate_calc_ceiling germanyCareCfg g ctx (by decide)).2.2
  have hm96 : (0:ℚ) ≤ min g 96000 := le_min hg (by norm_num)
  have hm62 : (0:ℚ) ≤ min g 62100 := le_min hg (by norm_num)
  have haP : (0:ℚ) ≤ min g 96000 * 0.093 := by positivity
  have haH : (0:ℚ) ≤ min g 62100 * 0.091 := by positivity
  have haU : (0:ℚ) ≤ min g 96000 * 0.013 := by positivity
  have haC : (0:ℚ) ≤ min g 62100 * 0.02 := by positivity
  have hnP : (strContains (lowerStr "Pension Insurance") "insurance" ||
      strContains (lowerStr "Pension Insurance") "social") = true := by decide
  have hnP2 : (lowerStr "Pension Insurance" == "income tax") = false := by
    decide
  have hnH : (strContains (lowerStr "Health Insurance") "insurance" ||
      strContains (lowerStr "Health Insurance") "social") = true := by decide
  have hnH2 : (lowerStr "Health Insurance" == "income tax") = false := by
    decide
  have hnU : (strContains (lowerStr "Unemployment Insurance") "insurance" ||
      strContains (lowerStr "Unemployment Insurance") "social") = true := by
    decide
  have hnU2 : (lowerStr "Unemployment Insurance" == "income tax") = false := by
    decide
  have hnC : (strContains (lowerStr "Long_Term_Care Insurance") "insurance" ||
      strContains (lowerStr "Long_Term_Care Insurance") "social") = true := by
    decide
  have hnC2 : (lowerStr "Long_Term_Care Insurance" == "income tax") =
      false := by decide
  have hA1 : germanyPensionCfg.applies_to = DeductionBase.gross := rfl
  have hA2 : germanyHealthCfg.applies_to = DeductionBase.gross := rfl
  have hA3 : germanyUnemploymentCfg.applies_to = DeductionBase.gross := rfl
  have hA4 : germanyCareCfg.applies_to = DeductionBase.gross := rfl
  have hA5 : germanyIncomeTaxCfg.applies_to = DeductionBase.taxable := rfl
  have hne : ¬ (DeductionBase.taxable = DeductionBase.gross) := by decide
  rw [henum]
  simp only [runPrePass, DeductionStrategy.config, hA1, hA2, hA3, hA4, hA5,
    eq_self_iff_true, if_true, ite_true, if_neg hne, hPc, hHc, hUc, hCc]
  rw [update_context_social_only _ _ (by rw [hPn]; exact hnP)
    (by rw [hPn]; exact hnP2)]
  simp only [hPa, Option.getD_none, Option.getD_some, zero_add]
  rw [update_context_social_only _ _ (by rw [hHn]; exact hnH)
    (by rw [hHn]; exact hnH2)]
  simp only [hHa, Option.getD_none, Option.getD_some, zero_add]
  rw [update_context_social_only _ _ (by rw [hUn]; exact hnU)
    (by rw [hUn]; exact hnU2)]
  simp only [hUa, Option.getD_none, Option.getD_some, zero_add]
  rw [update_context_social_only _ _ (by rw [hCn]; exact hnC)
    (by rw [hCn]; exact hnC2)]
  simp only [hCa, Option.getD_none, Option.getD_some, zero_add]
  rw [addIfPositive_total _ _ (by rw [hCa]; exact haC),
    addIfPositive_total _ _ (by rw [hUa]; exact haU),
    addIfPositive_total _ _ (by rw [hHa]; exact haH),
    addIfPositive_total _ _ (by rw [hPa]; exact haP)]
  simp only [hPa, hHa, hUa, hCa]
  refine ⟨by unfold ssDE; ring, ?_, rfl⟩
  simp only [ssDE, Ctx.mk.injEq, Option.some.injEq, and_true]

lemma germany_mainpass_total (g tb : ℚ) (res : TaxResult) (ctx : Ctx) :
    (runDeductionPass g tb [0, 1, 2, 3] (germanyStrategies.take 5).enum
        (res, ctx)).1.total_deductions =
      res.total_deductions +
        max 0 ((progressiveWalk tb germanyBrackets tb).1 - 0) := by
  have henum : (germanyStrategies.take 5).enum =
      [ (0, .flatRate germanyPensionCfg)
      , (1, .flatRate germanyHealthCfg)
      , (2, .flatRate germanyUnemploymentCfg)
      , (3, .flatRate germanyCareCfg)
      , (4, .progressive germanyIncomeTaxCfg germanyBrackets 0) ] := rfl
  have h0 : (0:ℕ) ∈ [0, 1, 2, 3] := by decide
  have h1 : (1:ℕ) ∈ [0, 1, 2, 3] := by decide
  have h2 : (2:ℕ) ∈ [0, 1, 2, 3] := by decide
  have h3 : (3:ℕ) ∈ [0, 1, 2, 3] := by decide
  have h4 : ¬ ((4:ℕ) ∈ [0, 1, 2, 3]) := by decide
  have hbase : (DeductionStrategy.progressive germanyIncomeTaxCfg
      germanyBrackets 0).get_base_amount g tb ctx = tb := rfl
  have hamount : ((DeductionStrategy.progressive germanyIncomeTaxCfg
        germanyBrackets 0).calculate tb ctx).1.amount =
      max 0 ((progressiveWalk tb germanyBrackets tb).1 - 0) := rfl
  rw [henum]
  simp only [runDeductionPass, if_pos h0, if_pos h1, if_pos h2, if_pos h3,
    if_neg h4, hbase]
  rw [addIfPositive_total _ _ (by rw [hamount]; exact le_max_left 0 _),
    hamount]

lemma netDE_eval (g : ℚ) (hg : 0 ≤ g) :
    netDE g = g - ssDE g - taxDE (g - ssDE g) := by
  obtain ⟨hT, hCtx, hD⟩ := germany_prepass_eval g hg
    (initResult (mkCalculator g germanyNoSurchargeConfig 1))
  have hpre : prePassStage (mkCalculator g germanyNoSurchargeConfig 1) =
      runPrePass g (germanyStrategies.take 5).enum
        (initResult (mkCalculator g germanyNoSurchargeConfig 1), {}, []) :=
    rfl
  have htb : engineTaxBase (mkCalculator g germanyNoSurchargeConfig 1) =
      (g - ssDE g, ({ social_security_total := some (ssDE g) } : Ctx)) := by
    unfold engineTaxBase
    rw [hpre, hCtx]
    rfl
  have hmp : (engineMainPass
        (mkCalculator g germanyNoSurchargeConfig 1)).1.total_deductions =
      (initResult
          (mkCalculator g germanyNoSurchargeConfig 1)).total_deductions +
        ssDE g +
        max 0 ((progressiveWalk (g - ssDE g) germanyBrackets
          (g - ssDE g)).1 - 0) := by
    unfold engineMainPass
    have hgr : (mkCalculator g germanyNoSurchargeConfig 1).gross_salary =
        g := rfl
    have hstrat : (mkCalculator
        g germanyNoSurchargeConfig 1).regime.deduction_strategies =
        germanyStrategies.take 5 := rfl
    simp only [htb, hpre, hCtx, hD, hgr, hstrat]
    rw [germany_mainpass_total]
    have hres : ({ (runPrePass g (germanyStrategies.take 5).enum
          (initResult (mkCalculator g germanyNoSurchargeConfig 1), {},
            [])).1 with
        tax_base := g - ssDE g } : TaxResult).total_deductions =
        (runPrePass g (germanyStrategies.take 5).enum
          (initResult (mkCalculator g germanyNoSurchargeConfig 1), {},
            [])).1.total_deductions := rfl
    rw [hres, hT]
  have hfin := finalize_fields (mkCalculator g germanyNoSurchargeConfig 1)
    (engineTaxBase (mkCalculator g germanyNoSurchargeConfig 1)).1
    (engineMainPass (mkCalculator g germanyNoSurchargeConfig 1))
  have hwnn : 0 ≤ (progressiveWalk (g - ssDE g) germanyBrackets
      (g - ssDE g)).1 :=
    progressiveWalk_nonneg germanyBrackets
      (by intro bc hbc; fin_cases hbc <;> norm_num [germanyBrackets]) _ _
  have hclosed := progressiveWalk_eq_closed germanyBrackets 0 (g - ssDE g)
    (by decide)
  rw [sub_zero] at hclosed
  have hinit : (initResult
      (mkCalculator g germanyNoSurchargeConfig 1)).total_deductions = 0 := rfl
  have hgr : (mkCalculator g germanyNoSurchargeConfig 1).gross_salary = g :=
    rfl
  unfold netDE calculate_net_salary
  rw [hfin.2.2.2, hgr, hmp, hinit, sub_zero, max_eq_right hwnn, hclosed]
  unfold taxDE
  ring

lemma ssDE_lip (g1 g2 : ℚ) (h : g1 ≤ g2) :
    0 ≤ ssDE g2 - ssDE g1 ∧
      ssDE g2 - ssDE g1 ≤ (217/1000) * (g2 - g1) := by
  unfold ssDE
  have l96 := min_lip g1 g2 96000 h
  have l62 := min_lip g1 g2 62100 h
  have m96 := min_mono g1 g2 96000 h
  have m62 := min_mono g1 g2 62100 h
  constructor <;> nlinarith

lemma ssDE_le (g : ℚ) (hg : 0 ≤ g) : ssDE g ≤ (217/1000) * g := by
  unfold ssDE
  have a1 := min_le_left g (96000:ℚ)
  have a2 := min_le_left g (62100:ℚ)
  have c1 : (0:ℚ) ≤ min g 96000 := le_min hg (by norm_num)
  have c2 : (0:ℚ) ≤ min g 62100 := le_min hg (by norm_num)
  nlinarith

/-- C2 (amended): with the Germany regime's conditional solidarity surcharge
removed, the engine's net salary is a non-decreasing function of gross salary
on `[0, 10_000_000]`. -/
theorem c2_monotonic_without_surcharge (g1 g2 : ℚ) (h0 : 0 ≤ g1)
    (h12 : g1 ≤ g2) (h2 : g2 ≤ 10000000) : netDE g1 ≤ netDE g2 := by
  rw [netDE_eval g1 h0, netDE_eval g2 (h0.trans h12)]
  obtain ⟨hs0, hs1⟩ := ssDE_lip g1 g2 h12
  have hssle1 := ssDE_le g1 h0
  have hssle2 := ssDE_le g2 (h0.trans h12)
  have hb1 : (0:ℚ) ≤ g1 - ssDE g1 := by nlinarith
  have hb2 : (0:ℚ) ≤ g2 - ssDE g2 := by nlinarith
  have hb12 : g1 - ssDE g1 ≤ g2 - ssDE g2 := by nlinarith
  have hcontig : contiguousFromB 0 germanyBrackets = true := by decide
  have hrates : ratesLeB (45/100) germanyBrackets = true := by
    norm_num [ratesLeB, germanyBrackets]
  obtain ⟨hm0, hm1⟩ := bracketsTaxFrom_mono_lip (45/100) germanyBrackets 0
    (g1 - ssDE g1) (g2 - ssDE g2) hcontig hrates hb12
  rw [min_eq_right hb1, min_eq_right hb2] at hm1
  unfold taxDE
  nlinarith

theorem c2_monotonic_without_surcharge_witness :
    (0:ℚ) ≤ 10000 ∧ (10000:ℚ) ≤ 20000 ∧ (20000:ℚ) ≤ 10000000 ∧
      netDE 10000 ≤ netDE 20000 :=
  ⟨by norm_num, by norm_num, by norm_num,
    c2_monotonic_without_surcharge 10000 20000 (by norm_num) (by norm_num)
      (by norm_num)⟩

lemma runPrePass_append (g : ℚ) :
    ∀ (l1 l2 : List (Nat × DeductionStrategy))
      (st : TaxResult × Ctx × List Nat),
      runPrePass g (l1 ++ l2) st = runPrePass g l2 (runPrePass g l1 st) := by
  intro l1
  induction l1 with
  | nil => intro l2 st; rfl
  | cons p rest ih =>
    intro l2 st
    obtain ⟨i, s⟩ := p
    obtain ⟨res, ctx, done⟩ := st
    by_cases hc : s.config.applies_to = .gross
    · simp only [List.cons_append, runPrePass, if_pos hc]
      exact ih l2 _
    · simp only [List.cons_append, runPrePass, if_neg hc]
      exact ih l2 _

lemma germany_full_prepass_eval (g : ℚ) (hg : 0 ≤ g) (res : TaxResult) :
    (runPrePass g germanyStrategies.enum (res, {}, [])).1.total_deductions =
        res.total_deductions + ssDE g ∧
      (runPrePass g germanyStrategies.enum (res, {}, [])).2.1 =
        ({ social_security_total := some (ssDE g) } : Ctx) ∧
      (runPrePass g germanyStrategies.enum (res, {}, [])).2.2 =
        [0, 1, 2, 3] := by
  obtain ⟨hT, hC, hD⟩ := germany_prepass_eval g hg res
  have happ : germanyStrategies.enum =
      (germanyStrategies.take 5).enum ++ [(5, germanySoli)] := rfl
  have hsoli : germanySoli.config.applies_to = DeductionBase.income_tax := rfl
  have hne : ¬ (DeductionBase.income_tax = DeductionBase.gross) := by decide
  rw [happ, runPrePass_append]
  simp only [runPrePass, hsoli, if_neg hne]
  exact ⟨hT, hC, hD⟩

lemma germany_full_mainpass_total (g tb : ℚ) (res : TaxResult) (ctx : Ctx) :
    (runDeductionPass g tb [0, 1, 2, 3] germanyStrategies.enum
        (res, ctx)).1.total_deductions =
      res.total_deductions +
        max 0 ((progressiveWalk tb germanyBrackets tb).1 - 0) +
        (if 1000 < max 0 ((progressiveWalk tb germanyBrackets tb).1 - 0) then
          max 0 ((progressiveWalk tb germanyBrackets tb).1 - 0) * 0.055
        else 0) := by
  have henum : germanyStrategies.enum =
      [ (0, .flatRate germanyPensionCfg)
      , (1, .flatRate germanyHealthCfg)
      , (2, .flatRate germanyUnemploymentCfg)
      , (3, .flatRate germanyCareCfg)
      , (4, .progressive germanyIncomeTaxCfg germanyBrackets 0)
      , (5, germanySoli) ] := rfl
  have h0 : (0:ℕ) ∈ [0, 1, 2, 3] := by decide
  have h1 : (1:ℕ) ∈ [0, 1, 2, 3] := by decide
  have h2 : (2:ℕ) ∈ [0, 1, 2, 3] := by decide
  have h3 : (3:ℕ) ∈ [0, 1, 2, 3] := by decide
  have h4 : ¬ ((4:ℕ) ∈ [0, 1, 2, 3]) := by decide
  have h5 : ¬ ((5:ℕ) ∈ [0, 1, 2, 3]) := by decide
  have hbase4 : (DeductionStrategy.progressive germanyIncomeTaxCfg
      germanyBrackets 0).get_base_amount g tb ctx = tb := rfl
  have hamount4 : ((DeductionStrategy.progressive germanyIncomeTaxCfg
        germanyBrackets 0).calculate tb ctx).1.amount =
      max 0 ((progressiveWalk tb germanyBrackets tb).1 - 0) := rfl
  have hname4 : ((DeductionStrategy.progressive germanyIncomeTaxCfg
        germanyBrackets 0).calculate tb ctx).1.name = "Income Tax" := rfl
  have hnI : (strContains (lowerStr "Income Tax") "insurance" ||
      strContains (lowerStr "Income Tax") "social") = false := by decide
  have hnI2 : (lowerStr "Income Tax" == "income tax") = true := by decide
  have hsoli5 : ∀ ctx' : Ctx,
      ctx'.income_tax_amount =
        some (max 0 ((progressiveWalk tb germanyBrackets tb).1 - 0)) →
      (germanySoli.calculate (germanySoli.get_base_amount g tb ctx')
          ctx').1.amount =
        (if 1000 < max 0 ((progressiveWalk tb germanyBrackets tb).1 - 0) then
          max 0 ((progressiveWalk tb germanyBrackets tb).1 - 0) * 0.055
        else 0) := by
    intro ctx' h
    unfold germanySoli DeductionStrategy.get_base_amount
      DeductionStrategy.calculate germanySoliCondition
    simp only [germanySoliCfg, h, Option.getD_some, decide_eq_true_eq]
    by_cases hcond :
        (1000:ℚ) < max 0 ((progressiveWalk tb germanyBrackets tb).1 - 0)
    · rw [if_pos hcond, if_pos hcond]
    · rw [if_neg hcond, if_neg hcond]
  rw [henum]
  simp only [runDeductionPass, if_pos h0, if_pos h1, if_pos h2, if_pos h3,
    if_neg h4, if_neg h5, hbase4]
  rw [update_context_income_only _ _ (by rw [hname4]; exact hnI)
    (by rw [hname4]; exact hnI2)]
  set CTX : Ctx := { ((DeductionStrategy.progressive germanyIncomeTaxCfg
      germanyBrackets 0).calculate tb ctx).2 with
    income_tax_amount :=
      some (((DeductionStrategy.progressive germanyIncomeTaxCfg
        germanyBrackets 0).calculate tb ctx).1.amount) } with hCTX
  have hinc : CTX.income_tax_amount =
      some (max 0 ((progressiveWalk tb germanyBrackets tb).1 - 0)) := by
    rw [hCTX, hamount4]
  have hnn4 : (0:ℚ) ≤ ((DeductionStrategy.progressive germanyIncomeTaxCfg
      germanyBrackets 0).calculate tb ctx).1.amount := by
    rw [hamount4]
    exact le_max_left 0 _
  have hnn5 : (0:ℚ) ≤ (germanySoli.calculate
      (germanySoli.get_base_amount g tb CTX) CTX).1.amount := by
    rw [hsoli5 CTX hinc]
    split
    · positivity
    · exact le_refl 0
  rw [addIfPositive_total _ _ hnn5, hsoli5 CTX hinc,
    addIfPositive_total _ _ hnn4, hamount4]

/-- Net salary of the full Germany pipeline (surcharge included). -/
def netFull (g : ℚ) : ℚ :=
  (calculate_net_salary (mkCalculator g germanyConfig 1)).net_salary

lemma netFull_eval (g : ℚ) (hg : 0 ≤ g) :
    netFull g = g - ssDE g - taxDE (g - ssDE g) -
      (if 1000 < taxDE (g - ssDE g) then taxDE (g - ssDE g) * 0.055
        else 0) := by
  obtain ⟨hT, hCtx, hD⟩ := germany_full_prepass_eval g hg
    (initResult (mkCalculator g germanyConfig 1))
  have hpre : prePassStage (mkCalculator g germanyConfig 1) =
      runPrePass g germanyStrategies.enum
        (initResult (mkCalculator g germanyConfig 1), {}, []) := rfl
  have htb : engineTaxBase (mkCalculator g germanyConfig 1) =
      (g - ssDE g, ({ social_security_total := some (ssDE g) } : Ctx)) := by
    unfold engineTaxBase
    rw [hpre, hCtx]
    rfl
  have hwnn : 0 ≤ (progressiveWalk (g - ssDE g) germanyBrackets
      (g - ssDE g)).1 :=
    progressiveWalk_nonneg germanyBrackets
      (by intro bc hbc; fin_cases hbc <;> norm_num [germanyBrackets]) _ _
  have hclosed := progressiveWalk_eq_closed germanyBrackets 0 (g - ssDE g)
    (by decide)
  rw [sub_zero] at hclosed
  have hmp : (engineMainPass
        (mkCalculator g germanyConfig 1)).1.total_deductions =
      (initResult (mkCalculator g germanyConfig 1)).total_deductions +
        ssDE g + taxDE (g - ssDE g) +
        (if 1000 < taxDE (g - ssDE g) then taxDE (g - ssDE g) * 0.055
          else 0) := by
    unfold engineMainPass
    have hgr : (mkCalculator g germanyConfig 1).gross_salary = g := rfl
    have hstrat : (mkCalculator
        g germanyConfig 1).regime.deduction_strategies =
        germanyStrategies := rfl
    simp only [htb, hpre, hCtx, hD, hgr, hstrat]
    rw [germany_full_mainpass_total]
    have hres : ({ (runPrePass g germanyStrategies.enum
          (initResult (mkCalculator g germanyConfig 1), {}, [])).1 with
        tax_base := g - ssDE g } : TaxResult).total_deductions =
        (runPrePass g germanyStrategies.enum
          (initResult (mkCalculator g germanyConfig 1), {},
            [])).1.total_deductions := rfl
    rw [hres, hT, sub_zero, max_eq_right hwnn, hclosed]
    unfold taxDE
    ring_nf
  have hfin := finalize_fields (mkCalculator g germanyConfig 1)
    (engineTaxBase (mkCalculator g germanyConfig 1)).1
    (engineMainPass (mkCalculator g germanyConfig 1))
  have hinit : (initResult
      (mkCalculator g germanyConfig 1)).total_deductions = 0 := rfl
  have hgr : (mkCalculator g germanyConfig 1).gross_salary = g := rfl
  unfold netFull calculate_net_salary
  rw [hfin.2.2.2, hgr, hmp, hinit]
  ring_nf

/-- C2 (counterexample): for the Germany regime the net salary is not
non-decreasing in gross salary: at gross 20769 the income tax is just below
the 1000 threshold, at 20770 just above, so the 5.5 percent surcharge on the
whole income tax makes net salary drop. -/
theorem c2_monotonicity_cex :
    ((20769:ℚ) ≤ 20770) ∧
      (calculate_net_salary (mkCalculator 20770 germanyConfig 1)).net_salary <
        (calculate_net_salary (mkCalculator 20769 germanyConfig 1)).net_salary
    := by
  constructor
  · norm_num
  · have e1 := netFull_eval 20769 (by norm_num)
    have e2 := netFull_eval 20770 (by norm_num)
    unfold netFull at e1 e2
    rw [e1, e2]
    norm_num [ssDE, taxDE, bracketsTaxFrom, germanyBrackets, min_def]

/-! ### The after-social-security pre-pass (C4) -/

/-- Strategies whose `calculate` neither reads nor writes the shared context
(the flat-rate and capped-percentage classes). -/
def ctxFreeB : DeductionStrategy → Bool
  | .flatRate _ => true
  | .cappedPercentage _ => true
  | _ => false

lemma ctxFree_calc (s : DeductionStrategy) (h : ctxFreeB s = true) (b : ℚ)
    (ctx : Ctx) :
    (s.calculate b ctx).1 = (s.calculate b {}).1 ∧
      (s.calculate b ctx).2 = ctx := by
  cases s <;> simp [ctxFreeB] at h <;> exact ⟨rfl, rfl⟩

/-- The contribution of one gross-applied strategy to the social-security
running total: its amount when its name matches a social/insurance-like
label, zero otherwise. -/
def socialContribution (g : ℚ) (s : DeductionStrategy) : ℚ :=
  if strContains (lowerStr (s.calculate g {}).1.name) "insurance" ||
      strContains (lowerStr (s.calculate g {}).1.name) "social" then
    (s.calculate g {}).1.amount
  else 0

/-- `S`: the sum, over the gross-applied strategies in configured order, of
the matching-name amounts. -/
def prePassSocialSum (g : ℚ) (l : List DeductionStrategy) : ℚ :=
  ((l.filter (fun s => s.config.applies_to == DeductionBase.gross)).map
    (socialContribution g)).sum

/-- The deductions the pre-pass appends: the gross-applied strategies'
results with strictly positive amounts, in order. -/
def prePassDeductions (g : ℚ) (l : List DeductionStrategy) : List Deduction :=
  ((l.filter (fun s => s.config.applies_to == DeductionBase.gross)).map
    (fun s => (s.calculate g {}).1)).filter (fun d => decide (0 < d.amount))

lemma update_context_social_getD (ctx : Ctx) (d : Deduction) :
    (update_context ctx d).social_security_total.getD 0 =
      ctx.social_security_total.getD 0 +
        (if strContains (lowerStr d.name) "insurance" ||
            strContains (lowerStr d.name) "social" then d.amount else 0) := by
  unfold update_context
  split_ifs with h1 h2 h3 <;> simp

lemma addIfPositive_deductions (res : TaxResult) (d : Deduction) :
    (addIfPositive res d).deductions =
      res.deductions ++ (if 0 < d.amount then [d] else []) := by
  unfold addIfPositive TaxResult.add_deduction
  split <;> simp

lemma runPrePass_spec (g : ℚ) :
    ∀ (l : List (Nat × DeductionStrategy)) (res : TaxResult) (ctx : Ctx)
      (done : List Nat),
      (∀ p ∈ l, p.2.config.applies_to = .gross → ctxFreeB p.2 = true) →
      (runPrePass g l (res, ctx, done)).2.1.social_security_total.getD 0 =
          ctx.social_security_total.getD 0 +
            prePassSocialSum g (l.map (·.2)) ∧
        (runPrePass g l (res, ctx, done)).1.deductions =
          res.deductions ++ prePassDeductions g (l.map (·.2)) := by
  intro l
  induction l with
  | nil =>
    intro res ctx done _
    simp [runPrePass, prePassSocialSum, prePassDeductions]
  | cons p rest ih =>
    intro res ctx done hfree
    obtain ⟨i, s⟩ := p
    have hfs := hfree (i, s) (List.mem_cons_self _ _)
    have hfrest : ∀ p ∈ rest, p.2.config.applies_to = .gross →
        ctxFreeB p.2 = true :=
      fun p hp => hfree p (List.mem_cons_of_mem _ hp)
    by_cases hc : s.config.applies_to = .gross
    · obtain ⟨hcalc1, hcalc2⟩ := ctxFree_calc s (hfs hc) g ctx
      simp only [runPrePass, if_pos hc]
      obtain ⟨ihA, ihB⟩ := ih (addIfPositive res (s.calculate g ctx).1)
        (update_context (s.calculate g ctx).2 (s.calculate g ctx).1)
        (done ++ [i]) hfrest
      constructor
      · rw [ihA, hcalc2, hcalc1, update_context_social_getD]
        have hfilter : ((( i, s) :: rest).map (·.2)).filter
            (fun s => s.config.applies_to == DeductionBase.gross) =
            s :: ((rest.map (·.2)).filter
              (fun s => s.config.applies_to == DeductionBase.gross)) := by
          simp [List.filter_cons, hc]
        unfold prePassSocialSum
        rw [hfilter]
        simp only [List.map_cons, List.sum_cons, socialContribution]
        ring
      · rw [ihB, hcalc1, addIfPositive_deductions]
        have hfilter : ((( i, s) :: rest).map (·.2)).filter
            (fun s => s.config.applies_to == DeductionBase.gross) =
            s :: ((rest.map (·.2)).filter
              (fun s => s.config.applies_to == DeductionBase.gross)) := by
          simp [List.filter_cons, hc]
        unfold prePassDeductions
        rw [hfilter]
        simp only [List.map_cons, List.filter_cons]
        by_cases hpos : 0 < ((s.calculate g {}).1).amount
        · simp [hpos]
        · simp [hpos]
    · simp only [runPrePass, if_neg hc]
      obtain ⟨ihA, ihB⟩ := ih res ctx done hfrest
      have hfilter : ((( i, s) :: rest).map (·.2)).filter
          (fun s => s.config.applies_to == DeductionBase.gross) =
          (rest.map (·.2)).filter
            (fun s => s.config.applies_to == DeductionBase.gross) := by
        simp [List.filter_cons, hc]
      constructor
      · rw [ihA]
        unfold prePassSocialSum
        rw [hfilter]
      · rw [ihB]
        unfold prePassDeductions
        rw [hfilter]

lemma addIfPositive_tax_base (res : TaxResult) (d : Deduction) :
    (addIfPositive res d).tax_base = res.tax_base := by
  unfold addIfPositive TaxResult.add_deduction
  split <;> rfl

lemma runDeductionPass_tax_base (g tb : ℚ) (done : List Nat) :
    ∀ (l : List (Nat × DeductionStrategy)) (res : TaxResult) (ctx : Ctx),
      (runDeductionPass g tb done l (res, ctx)).1.tax_base = res.tax_base := by
  intro l
  induction l with
  | nil => intro res ctx; rfl
  | cons p rest ih =>
    intro res ctx
    obtain ⟨i, s⟩ := p
    by_cases hm : i ∈ done
    · simp only [runDeductionPass, if_pos hm]
      exact ih res ctx
    · simp only [runDeductionPass, if_neg hm]
      exact (ih _ _).trans (addIfPositive_tax_base _ _)

lemma finalize_tax_base (c : UniversalTaxCalculator) (tb : ℚ)
    (mp : TaxResult × Ctx) : (finalize c tb mp).tax_base = mp.1.tax_base := by
  unfold finalize
  cases mp.2.income_tax_brackets <;> rfl

/-- C4: for a regime with the after-social-security base strategy (with the
gross-applied strategies drawn from the context-free flat/capped classes, as
in the configurations), the pre-pass appends exactly the non-zero-amount
gross deductions, the matching-name amounts sum to `S`, the computed tax base
is `gross - S` exactly, and a subsequent progressive deduction with
`applies_to = taxable` receives `gross - S`, not `gross`, as its base. -/
theorem c4_after_ss_tax_base (regime : TaxRegimeConfig) (cr g : ℚ)
    (hbase : regime.tax_base_strategy = .afterSocialSecurity)
    (hfree : ∀ s ∈ regime.deduction_strategies,
      s.config.applies_to = .gross → ctxFreeB s = true) :
    (calculate_net_salary (mkCalculator g regime cr)).tax_base =
        g - prePassSocialSum g regime.deduction_strategies ∧
      (prePassStage (mkCalculator g regime cr)).1.deductions =
        (initResult (mkCalculator g regime cr)).deductions ++
          prePassDeductions g regime.deduction_strategies ∧
      ∀ (cfg : DeductionConfig) (bs : List TaxBracketConfig) (disc : ℚ)
        (ctx : Ctx), cfg.applies_to = .taxable →
        (DeductionStrategy.progressive cfg bs disc).get_base_amount g
            (g - prePassSocialSum g regime.deduction_strategies) ctx =
          g - prePassSocialSum g regime.deduction_strategies := by
  have hreg : (mkCalculator g regime cr).regime = regime := rfl
  have hgross : (mkCalculator g regime cr).gross_salary = g := rfl
  have hfree' : ∀ p ∈ regime.deduction_strategies.enum,
      p.2.config.applies_to = .gross → ctxFreeB p.2 = true := by
    intro p hp
    have : p.2 ∈ regime.deduction_strategies.enum.map (·.2) :=
      List.mem_map_of_mem _ hp
    rw [List.enum_map_snd] at this
    exact hfree p.2 this
  obtain ⟨hS, hDed⟩ := runPrePass_spec g regime.deduction_strategies.enum
    (initResult (mkCalculator g regime cr)) {} [] hfree'
  rw [List.enum_map_snd] at hS hDed
  have hpre : prePassStage (mkCalculator g regime cr) =
      runPrePass g regime.deduction_strategies.enum
        (initResult (mkCalculator g regime cr), {}, []) := by
    unfold prePassStage
    rw [hreg, hgross, hbase]
    rfl
  have hgetD : (({} : Ctx)).social_security_total.getD 0 = 0 := rfl
  rw [hgetD, zero_add] at hS
  have htb : (engineTaxBase (mkCalculator g regime cr)).1 =
      g - prePassSocialSum g regime.deduction_strategies := by
    unfold engineTaxBase
    rw [hreg, hgross, hbase, hpre]
    show g - (runPrePass g regime.deduction_strategies.enum
        (initResult (mkCalculator g regime cr), {},
          [])).2.1.social_security_total.getD 0 =
      g - prePassSocialSum g regime.deduction_strategies
    rw [hS]
  refine ⟨?_, ?_, ?_⟩
  · unfold calculate_net_salary
    rw [finalize_tax_base]
    unfold engineMainPass
    rw [runDeductionPass_tax_base]
    show (engineTaxBase (mkCalculator g regime cr)).1 =
      g - prePassSocialSum g regime.deduction_strategies
    exact htb
  · rw [hpre]
    exact hDed
  · intro cfg bs disc ctx hcfg
    simp only [DeductionStrategy.get_base_amount]
    rw [hcfg]

theorem c4_after_ss_tax_base_witness :
    germanyConfig.tax_base_strategy =
        TaxBaseStrategy.afterSocialSecurity ∧
      (calculate_net_salary (mkCalculator 50000 germanyConfig 1)).tax_base =
        50000 - prePassSocialSum 50000 germanyConfig.deduction_strategies :=
  ⟨rfl, (c4_after_ss_tax_base germanyConfig 1 50000 rfl (by decide)).1⟩

/-- C5: the cap itself is honoured (the amount never exceeds
`ceiling * rate`), and a `CappedPercentageDeduction` without a ceiling fails
at construction; but the configured `floor` is never read by `calculate`:
the France "Supplementary Pension (Bracket 2)" deduction (floor 47100)
computes `min(10000, 376800) * 0.0864 = 864`, not `0`, at a base of 10000
below its floor. -/
theorem c5_capped_percentage_floor_ignored :
    (∀ (base : ℚ) (ctx : Ctx),
      ((DeductionStrategy.cappedPercentage
          franceSupplementaryPensionB2Cfg).calculate base ctx).1.amount ≤
        376800 * 0.0864) ∧
      cappedPercentageInit
          { franceSupplementaryPensionB2Cfg with ceiling := none } =
        .error "CappedPercentageDeduction requires a ceiling" ∧
      franceSupplementaryPensionB2Cfg.floor = some 47100 ∧
      ((10000:ℚ) < 47100) ∧
      ((DeductionStrategy.cappedPercentage
          franceSupplementaryPensionB2Cfg).calculate 10000 {}).1.amount =
        864 := by
  refine ⟨?_, rfl, rfl, by norm_num, ?_⟩
  · intro base ctx
    show min base ((franceSupplementaryPensionB2Cfg.ceiling).getD 0) *
        franceSupplementaryPensionB2Cfg.rate ≤ 376800 * 0.0864
    have h1 : min base
        ((franceSupplementaryPensionB2Cfg.ceiling).getD 0) ≤ 376800 := by
      have := min_le_right base
        ((franceSupplementaryPensionB2Cfg.ceiling).getD 0)
      simpa [franceSupplementaryPensionB2Cfg] using this
    have h2 : franceSupplementaryPensionB2Cfg.rate = 0.0864 := rfl
    rw [h2]
    nlinarith
  · show min (10000:ℚ) ((franceSupplementaryPensionB2Cfg.ceiling).getD 0) *
        franceSupplementaryPensionB2Cfg.rate = 864
    have h2 : franceSupplementaryPensionB2Cfg.rate = (0.0864:ℚ) := rfl
    have h3 : (franceSupplementaryPensionB2Cfg.ceiling).getD 0 =
        (376800:ℚ) := rfl
    rw [h2, h3, min_eq_left (by norm_num)]
    norm_num

/-- C6 (counterexample): a flat-rate strategy invoked on a negative base
returns a deduction with a strictly negative amount, not a zero-amount
deduction: Germany's pension configuration at base `-1` gives
`min(-1, 96000) * 0.093 = -0.093`. -/
theorem c6_negative_base_cex :
    ((DeductionStrategy.flatRate germanyPensionCfg).calculate
        (-1) {}).1.amount = -(0.093 : ℚ) ∧
      -(0.093 : ℚ) ≠ 0 := by
  constructor
  · rw [(flatRate_calc_ceiling germanyPensionCfg (-1) {} (by decide)).1]
    have : germanyPensionCfg.ceiling.getD 0 = (96000:ℚ) := rfl
    rw [this, min_eq_left (by norm_num)]
    have : germanyPensionCfg.rate = (0.093:ℚ) := rfl
    rw [this]
    norm_num
  · norm_num

lemma conditional_calc_false (cfg : DeductionConfig) (cond : Ctx → Bool)
    (b : ℚ) (ctx : Ctx) (h : cond ctx = false) :
    ((DeductionStrategy.conditional cfg cond).calculate b ctx).1.amount =
      0 := by
  unfold DeductionStrategy.calculate
  simp [h]

lemma conditional_calc_true (cfg : DeductionConfig) (cond : Ctx → Bool)
    (b : ℚ) (ctx : Ctx) (h : cond ctx = true) :
    ((DeductionStrategy.conditional cfg cond).calculate b ctx).1.amount =
      b * cfg.rate := by
  unfold DeductionStrategy.calculate
  simp [h]

/-- A zero-filled result record, used to instantiate engine lemmas. -/
def emptyResult : TaxResult :=
  { gross_salary := 0, tax_base := 0, net_salary := 0, total_deductions := 0 }

/-- C6 (amended): with a non-negative configured ceiling (true of every
configuration shipped in `configs/`), a strategy invoked on a base of
exactly zero returns a zero-amount deduction; on a negative base it returns
a deduction whose amount is `≤ 0` (exactly zero for a progressive strategy
or a false-predicate conditional, `base * rate ≤ 0` for the others) without
raising, and the engine excludes every deduction whose amount is not
strictly positive, leaving the result unchanged. -/
theorem c6_nonpositive_base (cfg : DeductionConfig)
    (bs : List TaxBracketConfig) (disc m b : ℚ) (cond : Ctx → Bool)
    (ctx : Ctx) (res : TaxResult) (hb : b ≤ 0) (hr : 0 ≤ cfg.rate)
    (hd : 0 ≤ disc) (hceil : 0 ≤ cfg.ceiling.getD 0) :
    ((DeductionStrategy.flatRate cfg).calculate b ctx).1.amount ≤ 0 ∧
      ((DeductionStrategy.cappedPercentage cfg).calculate b ctx).1.amount ≤
        0 ∧
      ((DeductionStrategy.percentageOfTaxBase cfg m).calculate b
        ctx).1.amount ≤ 0 ∧
      ((DeductionStrategy.progressive cfg bs disc).calculate b
        ctx).1.amount = 0 ∧
      (cond ctx = false →
        ((DeductionStrategy.conditional cfg cond).calculate b
          ctx).1.amount = 0) ∧
      ((DeductionStrategy.conditional cfg cond).calculate b ctx).1.amount ≤
        0 ∧
      (b = 0 →
        ((DeductionStrategy.flatRate cfg).calculate b ctx).1.amount = 0 ∧
        ((DeductionStrategy.cappedPercentage cfg).calculate b
          ctx).1.amount = 0 ∧
        ((DeductionStrategy.percentageOfTaxBase cfg m).calculate b
          ctx).1.amount = 0 ∧
        ((DeductionStrategy.conditional cfg cond).calculate b
          ctx).1.amount = 0) ∧
      ∀ d : Deduction, d.amount ≤ 0 → addIfPositive res d = res := by
  have hflat : ((DeductionStrategy.flatRate cfg).calculate b
      ctx).1.amount ≤ 0 := by
    show (if optTruthy cfg.ceiling then min b (cfg.ceiling.getD 0) else b) *
        cfg.rate ≤ 0
    split
    · have h1 : min b (cfg.ceiling.getD 0) ≤ 0 :=
        le_trans (min_le_left _ _) hb
      nlinarith
    · nlinarith
  have hcapped : ((DeductionStrategy.cappedPercentage cfg).calculate b
      ctx).1.amount ≤ 0 := by
    show min b (cfg.ceiling.getD 0) * cfg.rate ≤ 0
    have h1 : min b (cfg.ceiling.getD 0) ≤ 0 :=
      le_trans (min_le_left _ _) hb
    nlinarith
  have hpct : ((DeductionStrategy.percentageOfTaxBase cfg m).calculate b
      ctx).1.amount ≤ 0 := by
    show b * cfg.rate ≤ 0
    nlinarith
  have hprog : ((DeductionStrategy.progressive cfg bs disc).calculate b
      ctx).1.amount = 0 := by
    show max 0 ((progressiveWalk b bs b).1 - disc) = 0
    rw [progressiveWalk_nonpos b b bs hb]
    show max 0 (0 - disc) = 0
    exact max_eq_left (by linarith)
  have hcondz : cond ctx = false →
      ((DeductionStrategy.conditional cfg cond).calculate b
        ctx).1.amount = 0 :=
    fun hc => conditional_calc_false cfg cond b ctx hc
  have hcond : ((DeductionStrategy.conditional cfg cond).calculate b
      ctx).1.amount ≤ 0 := by
    cases hc : cond ctx
    · rw [conditional_calc_false cfg cond b ctx hc]
    · rw [conditional_calc_true cfg cond b ctx hc]
      nlinarith
  have hzero : b = 0 →
      ((DeductionStrategy.flatRate cfg).calculate b ctx).1.amount = 0 ∧
      ((DeductionStrategy.cappedPercentage cfg).calculate b
        ctx).1.amount = 0 ∧
      ((DeductionStrategy.percentageOfTaxBase cfg m).calculate b
        ctx).1.amount = 0 ∧
      ((DeductionStrategy.conditional cfg cond).calculate b
        ctx).1.amount = 0 := by
    rintro rfl
    refine ⟨?_, ?_, ?_, ?_⟩
    · show (if optTruthy cfg.ceiling then min (0:ℚ) (cfg.ceiling.getD 0)
          else 0) * cfg.rate = 0
      split
      · rw [min_eq_left hceil, zero_mul]
      · rw [zero_mul]
    · show min (0:ℚ) (cfg.ceiling.getD 0) * cfg.rate = 0
      rw [min_eq_left hceil, zero_mul]
    · show (0:ℚ) * cfg.rate = 0
      rw [zero_mul]
    · cases hc : cond ctx
      · exact conditional_calc_false cfg cond 0 ctx hc
      · rw [conditional_calc_true cfg cond 0 ctx hc, zero_mul]
  refine ⟨hflat, hcapped, hpct, hprog, hcondz, hcond, hzero, ?_⟩
  intro d hd'
  unfold addIfPositive
  rw [if_neg (not_lt.mpr hd')]

theorem c6_nonpositive_base_witness :
    ((0:ℚ) ≤ 0 ∧ (0:ℚ) ≤ germanyPensionCfg.rate ∧
        (0:ℚ) ≤ germanyPensionCfg.ceiling.getD 0) ∧
      ((DeductionStrategy.flatRate germanyPensionCfg).calculate 0
        {}).1.amount = 0 :=
  ⟨⟨le_refl 0, by show (0:ℚ) ≤ 0.093; norm_num,
      by show (0:ℚ) ≤ 96000; norm_num⟩,
    ((c6_nonpositive_base germanyPensionCfg germanyBrackets 0 1 0
      (fun _ => false) {} emptyResult (le_refl 0)
      (by show (0:ℚ) ≤ 0.093; norm_num) (le_refl 0)
      (by show (0:ℚ) ≤ 96000; norm_num)).2.2.2.2.2.2.1 rfl).1⟩

/-- C7: the flat-rate-expense-with-cap base strategy: below the cap the
taxable base is `gross * taxable_rate`; above it,
`cap * taxable_rate + (gross - cap)`; the deductible-expense amount and the
cap-applied flag are written into the context. -/
theorem c7_flat_rate_expense_base (tr cap g : ℚ) (ctx : Ctx) :
    (g ≤ cap →
        ((TaxBaseStrategy.flatRateExpense tr cap).calculate g ctx).1 =
          g * tr) ∧
      (cap < g →
        ((TaxBaseStrategy.flatRateExpense tr cap).calculate g ctx).1 =
          cap * tr + (g - cap)) ∧
      ((TaxBaseStrategy.flatRateExpense tr cap).calculate g
          ctx).2.deductible_expenses =
        some (if g ≤ cap then g * (1 - tr) else cap * (1 - tr)) ∧
      ((TaxBaseStrategy.flatRateExpense tr cap).calculate g
          ctx).2.expense_cap_applied = some (decide (cap < g)) := by
  by_cases h : g ≤ cap
  · exact ⟨fun _ => by simp [TaxBaseStrategy.calculate, h],
      fun hlt => absurd h (not_le.mpr hlt),
      by simp [TaxBaseStrategy.calculate, h],
      by simp [TaxBaseStrategy.calculate, h]⟩
  · exact ⟨fun hle => absurd hle h, fun _ => by
      simp [TaxBaseStrategy.calculate, h],
      by simp [TaxBaseStrategy.calculate, h],
      by simp [TaxBaseStrategy.calculate, h]⟩

theorem c7_flat_rate_expense_base_witness :
    ((50000:ℚ) ≤ 80000 ∧
        ((TaxBaseStrategy.flatRateExpense (2/5) 80000).calculate 50000
          {}).1 = 50000 * (2/5)) ∧
      ((80000:ℚ) < 100000 ∧
        ((TaxBaseStrategy.flatRateExpense (2/5) 80000).calculate 100000
          {}).1 = 80000 * (2/5) + (100000 - 80000)) :=
  ⟨⟨by norm_num,
      (c7_flat_rate_expense_base (2/5) 80000 50000 {}).1 (by norm_num)⟩,
    ⟨by norm_num,
      (c7_flat_rate_expense_base (2/5) 80000 100000 {}).2.1 (by norm_num)⟩⟩

/-- C8: the Germany solidarity surcharge: its base is the context's
income-tax amount; at income tax exactly at (or below) the 1000 threshold
the amount is zero (strict inequality) and the engine leaves the result
unchanged; above the threshold the amount is `0.055 * income_tax`, the rate
applied to the full income-tax amount. -/
theorem c8_solidarity_threshold (ctx : Ctx) (t g tb : ℚ) (res : TaxResult)
    (h : ctx.income_tax_amount = some t) :
    germanySoli.get_base_amount g tb ctx = t ∧
      (t ≤ 1000 →
        (germanySoli.calculate (germanySoli.get_base_amount g tb ctx)
            ctx).1.amount = 0 ∧
          addIfPositive res (germanySoli.calculate
            (germanySoli.get_base_amount g tb ctx) ctx).1 = res) ∧
      (1000 < t →
        (germanySoli.calculate (germanySoli.get_base_amount g tb ctx)
            ctx).1.amount = t * 0.055) := by
  have hbase : germanySoli.get_base_amount g tb ctx = t := by
    show ctx.income_tax_amount.getD 0 = t
    rw [h]
    rfl
  refine ⟨hbase, ?_, ?_⟩
  · intro hle
    have hcond : germanySoliCondition ctx = false := by
      unfold germanySoliCondition
      rw [h]
      simpa using not_lt.mpr hle
    have hz : (germanySoli.calculate (germanySoli.get_base_amount g tb ctx)
        ctx).1.amount = 0 :=
      conditional_calc_false germanySoliCfg germanySoliCondition _ ctx hcond
    refine ⟨hz, ?_⟩
    unfold addIfPositive
    rw [hz, if_neg (lt_irrefl 0)]
  · intro hlt
    have hcond : germanySoliCondition ctx = true := by
      unfold germanySoliCondition
      rw [h]
      simpa using hlt
    rw [hbase]
    unfold germanySoli
    rw [conditional_calc_true germanySoliCfg germanySoliCondition t ctx
      hcond]
    rfl

theorem c8_solidarity_threshold_witness :
    (({ income_tax_amount := some 1000 } : Ctx).income_tax_amount =
        some 1000 ∧ (1000:ℚ) ≤ 1000 ∧
        (germanySoli.calculate (germanySoli.get_base_amount 0 0
            { income_tax_amount := some 1000 })
          { income_tax_amount := some 1000 }).1.amount = 0) ∧
      (({ income_tax_amount := some 1001 } : Ctx).income_tax_amount =
        some 1001 ∧ (1000:ℚ) < 1001 ∧
        (germanySoli.calculate (germanySoli.get_base_amount 0 0
            { income_tax_amount := some 1001 })
          { income_tax_amount := some 1001 }).1.amount = 1001 * 0.055) :=
  ⟨⟨rfl, by norm_num,
      ((c8_solidarity_threshold { income_tax_amount := some 1000 } 1000 0 0
        { gross_salary := 0, tax_base := 0, net_salary := 0,
          total_deductions := 0 } rfl).2.1 (by norm_num)).1⟩,
    ⟨rfl, by norm_num,
      (c8_solidarity_threshold { income_tax_amount := some 1001 } 1001 0 0
        { gross_salary := 0, tax_base := 0, net_salary := 0,
          total_deductions := 0 } rfl).2.2 (by norm_num)⟩⟩

/-- C10: calling the engine twice with the identical `(gross, regime)` pair
produces identical results in every field.  In this embedding the property
holds by construction: `calculate_net_salary` creates its context fresh and
empty (`context = {}`, line 62 of the source), every mutation is confined to
the per-call `TaxResult` and context, and the regime configuration is only
read, so the engine is a pure function of `(gross, regime, converter
rate)`. -/
theorem c10_two_run_determinism (g : ℚ) (regime : TaxRegimeConfig)
    (converterRate : ℚ) :
    (calculate_net_salary (mkCalculator g regime
        converterRate)).gross_salary =
      (calculate_net_salary (mkCalculator g regime
        converterRate)).gross_salary ∧
    (calculate_net_salary (mkCalculator g regime converterRate)).tax_base =
      (calculate_net_salary (mkCalculator g regime converterRate)).tax_base ∧
    (calculate_net_salary (mkCalculator g regime
        converterRate)).net_salary =
      (calculate_net_salary (mkCalculator g regime
        converterRate)).net_salary ∧
    (calculate_net_salary (mkCalculator g regime
        converterRate)).total_deductions =
      (calculate_net_salary (mkCalculator g regime
        converterRate)).total_deductions ∧
    (calculate_net_salary (mkCalculator g regime
        converterRate)).income_tax_brackets =
      (calculate_net_salary (mkCalculator g regime
        converterRate)).income_tax_brackets ∧
    (calculate_net_salary (mkCalculator g regime
        converterRate)).deductions =
      (calculate_net_salary (mkCalculator g regime
        converterRate)).deductions ∧
    (calculate_net_salary (mkCalculator g regime
        converterRate)).calculation_explanations =
      (calculate_net_salary (mkCalculator g regime
        converterRate)).calculation_explanations ∧
    calculate_net_salary (mkCalculator g regime converterRate) =
      calculate_net_salary (mkCalculator g regime converterRate) :=
  ⟨rfl, rfl, rfl, rfl, rfl, rfl, rfl, rfl⟩

/-! ### Registry lookup (C9) -/

lemma prefixMatches_refl (p : List Char) :
    ∀ rest : List Char, prefixMatches p (p ++ rest) = true := by
  induction p with
  | nil => intro rest; rfl
  | cons a as ih =>
    intro rest
    simp [prefixMatches, ih rest]

lemma hasSub_of_prefixMatches (p l : List Char)
    (h : prefixMatches p l = true) : hasSub p l = true := by
  cases l with
  | nil =>
    cases p with
    | nil => rfl
    | cons a as => simp [prefixMatches] at h
  | cons c t => simp [hasSub, h]

lemma hasSub_append (p : List Char) :
    ∀ (pre post : List Char), hasSub p (pre ++ (p ++ post)) = true := by
  intro pre
  induction pre with
  | nil =>
    intro post
    exact hasSub_of_prefixMatches p (p ++ post) (prefixMatches_refl p post)
  | cons c cs ih =>
    intro post
    simp [hasSub, ih post]

lemma strContains_of_split (s k : String) (pre post : List Char)
    (h : s.data = pre ++ (k.data ++ post)) : strContains s k = true := by
  unfold strContains
  rw [h]
  exact hasSub_append k.data pre post

lemma joinComma_mem_split (k : String) :
    ∀ ks : List String, k ∈ ks →
      ∃ pre post : List Char,
        (joinComma ks).data = pre ++ (k.data ++ post) := by
  intro ks
  induction ks with
  | nil => intro h; simp at h
  | cons k0 rest ih =>
    intro h
    rcases List.mem_cons.mp h with rfl | hm
    · cases rest with
      | nil =>
        refine ⟨[], [], ?_⟩
        simp [joinComma]
      | cons r rs =>
        refine ⟨[], (", " ++ joinComma (r :: rs)).data, ?_⟩
        simp [joinComma]
    · cases rest with
      | nil => simp at hm
      | cons r rs =>
        obtain ⟨pre, post, hsplit⟩ := ih hm
        refine ⟨(k0 ++ ", ").data ++ pre, post, ?_⟩
        simp [joinComma, hsplit]

lemma lookup_none_of_not_mem
    (entries : List (String × TaxRegimeConfig)) (key : String)
    (h : key ∉ regimeKeys entries) : entries.lookup key = none := by
  induction entries with
  | nil => rfl
  | cons p rest ih =>
    obtain ⟨k0, v0⟩ := p
    have h1 : ¬ (key = k0) := by
      intro he
      exact h (by simp [regimeKeys, he])
    have h2 : key ∉ regimeKeys rest := by
      intro hm
      exact h (by simp [regimeKeys] at hm ⊢; exact Or.inr hm)
    simp only [List.lookup, beq_eq_false_iff_ne.mpr h1]
    exact ih h2

/-- C9: for every key absent from the registry, `TaxRegimeRegistry.get`
fails with an error message that contains the requested key and every
registered key, and no configuration (hence no partial result) is produced;
for every stored key, `get` returns the stored configuration without
error. -/
theorem c9_registry_get (entries : List (String × TaxRegimeConfig))
    (key : String) :
    (key ∉ regimeKeys entries →
        ∃ msg, registryGet entries key = .error msg ∧
          strContains msg key = true ∧
          ∀ k ∈ regimeKeys entries, strContains msg k = true) ∧
      ∀ cfg, entries.lookup key = some cfg →
        registryGet entries key = .ok cfg := by
  constructor
  · intro habs
    refine ⟨"Unknown regime: " ++ key ++ ". Available regimes: " ++
      joinComma (regimeKeys entries), ?_, ?_, ?_⟩
    · unfold registryGet
      rw [lookup_none_of_not_mem entries key habs]
    · apply strContains_of_split _ _ "Unknown regime: ".data
        (". Available regimes: " ++ joinComma (regimeKeys entries)).data
      simp
    · intro k hk
      obtain ⟨pre, post, hsplit⟩ :=
        joinComma_mem_split k (regimeKeys entries) hk
      apply strContains_of_split _ _
        (("Unknown regime: " ++ key ++ ". Available regimes: ").data ++ pre)
        post
      simp [hsplit]
  · intro cfg hcfg
    unfold registryGet
    rw [hcfg]

theorem c9_registry_get_witness :
    (registryEntries 1 1 1 1).lookup "germany-salaried" =
        some germanyConfig ∧
      registryGet (registryEntries 1 1 1 1) "germany-salaried" =
        .ok germanyConfig :=
  ⟨rfl, (c9_registry_get (registryEntries 1 1 1 1) "germany-salaried").2
    germanyConfig rfl⟩

end SalaryCompare
